import Mathlib

/-!
ZX Spectrum snake: a shallow embedding of `snake.c`.

The C program keeps its whole state in globals.  Here the globals are the
fields of `GameState`, every C function is a Lean function on `GameState`,
and machine integers are natural numbers with the wrap-around written out
(`% 256` for `unsigned char`, `% 65536` for the 16-bit `unsigned int` of the
z88dk Z80 target named in the file header).

* The arrays `snakeX`, `snakeY` and the attribute memory at `0x5800` are
  maps from an index (an offset) to a byte.
* `rand()` is an oracle: a function that calls it takes the list of values
  the successive calls return.  A loop that would ask for more values than
  the list holds yields `none`.
* The keyboard ports read by `checkInput` are parameters.
-/

namespace Snake

/-! ## Constants (`snake.c` lines 13-28) -/

abbrev MAX_LENGTH : Nat := 128
abbrev INITIAL_LENGTH : Nat := 5
abbrev MIN_X : Nat := 1
abbrev MAX_X : Nat := 30
abbrev MIN_Y : Nat := 1
abbrev MAX_Y : Nat := 22
abbrev DIR_UP : Nat := 0
abbrev DIR_DOWN : Nat := 1
abbrev DIR_LEFT : Nat := 2
abbrev DIR_RIGHT : Nat := 3

/-! Attribute bits of `<arch/zx.h>` (a z88dk header, included by `snake.c`). -/

abbrev INK_BLACK : Nat := 0x00
abbrev PAPER_BLUE : Nat := 0x08
abbrev PAPER_RED : Nat := 0x10
abbrev PAPER_MAGENTA : Nat := 0x18
abbrev PAPER_GREEN : Nat := 0x20
abbrev PAPER_CYAN : Nat := 0x28
abbrev PAPER_YELLOW : Nat := 0x30
abbrev BRIGHT : Nat := 0x40

/-! ## State (`snake.c` lines 30-43) -/

/-- The globals of `snake.c`, plus the attribute memory `ATTR_BASE` points to. -/
structure GameState where
  snakeX : Nat → Nat
  snakeY : Nat → Nat
  headPtr : Nat
  tailPtr : Nat
  snakeLength : Nat
  direction : Nat
  newHeadX : Nat
  newHeadY : Nat
  foodX : Nat
  foodY : Nat
  score : Nat
  gameOver : Nat
  attr : Nat → Nat

/-- Array store `m[i] = v`. -/
def store (m : Nat → Nat) (i v : Nat) : Nat → Nat :=
  fun j => if j = i then v else m j

/-- The globals as the C runtime zero-initialises them before `main`. -/
def powerOn : GameState :=
  { snakeX := fun _ => 0, snakeY := fun _ => 0, headPtr := 0, tailPtr := 0,
    snakeLength := 0, direction := 0, newHeadX := 0, newHeadY := 0,
    foodX := 0, foodY := 0, score := 0, gameOver := 0, attr := fun _ => 0 }

/-! ## Display (`snake.c` lines 45-108, 134-152) -/

/-- `setAttr`: `ATTR_BASE[y * 32 + x] = attr`. -/
def setAttr (s : GameState) (x y a : Nat) : GameState :=
  { s with attr := store s.attr (y * 32 + x) a }

/-- `clearScreen`: the second `memset` zeroes the 768 attribute bytes (the
first one clears the pixel bytes, which nothing in the program reads). -/
def clearScreen (s : GameState) : GameState :=
  { s with attr := fun o => if o < 768 then 0 else s.attr o }

/-- The local array `colors` of `drawBorder`. -/
def borderColors : List Nat :=
  [PAPER_RED, PAPER_YELLOW, PAPER_GREEN, PAPER_CYAN, PAPER_BLUE, PAPER_MAGENTA]

/-- The value `colors[colorIdx % 6] | BRIGHT`. -/
def borderAttr (colorIdx : Nat) : Nat :=
  borderColors.getD (colorIdx % 6) 0 ||| BRIGHT

/-- `drawBorder`: four loops; in each one `colorIdx` runs in step with the
loop variable. -/
def drawBorder (s : GameState) : GameState :=
  let s1 := (List.range 32).foldl (fun t x => setAttr t x 0 (borderAttr x)) s
  let s2 := (List.range 32).foldl (fun t x => setAttr t x 23 (borderAttr x)) s1
  let s3 := (List.range 24).foldl (fun t y => setAttr t 0 y (borderAttr y)) s2
  (List.range 24).foldl (fun t y => setAttr t 31 y (borderAttr y)) s3

/-- `drawFood`. -/
def drawFood (s : GameState) : GameState :=
  setAttr s s.foodX s.foodY (INK_BLACK ||| PAPER_RED ||| BRIGHT)

/-- The loop of `drawSnake`: `n` iterations are left and the ring index is `idx`. -/
def drawSnake_loop (s : GameState) : Nat → Nat → GameState
  | _, 0 => s
  | idx, n + 1 =>
    let x := s.snakeX idx
    let y := s.snakeY idx
    let s1 :=
      if idx = s.headPtr then setAttr s x y (INK_BLACK ||| PAPER_YELLOW ||| BRIGHT)
      else setAttr s x y (INK_BLACK ||| PAPER_GREEN ||| BRIGHT)
    drawSnake_loop s1 ((idx + 1) &&& (MAX_LENGTH - 1)) n

/-- `drawSnake`. -/
def drawSnake (s : GameState) : GameState :=
  drawSnake_loop s s.tailPtr s.snakeLength

/-! ## Food placement (`snake.c` lines 110-132) -/

/-- The `for` loop of `placeFood`: `true` when some of the next `n` ring slots
from `idx` holds `(foodX, foodY)`, that is when the loop sets `valid = 0`. -/
def placeFood_onSnake (s : GameState) : Nat → Nat → Bool
  | _, 0 => false
  | idx, n + 1 =>
    if s.snakeX idx = s.foodX ∧ s.snakeY idx = s.foodY then true
    else placeFood_onSnake s ((idx + 1) &&& (MAX_LENGTH - 1)) n

/-- `placeFood`: each pass of the `do ... while (!valid)` loop takes two
values of `rand()`; `none` when the values run out before a pass is valid. -/
def placeFood (s : GameState) : List Nat → Option GameState
  | r1 :: r2 :: rs =>
    let s1 := { s with foodX := ((r1 % (MAX_X - MIN_X)) + MIN_X) % 256,
                       foodY := ((r2 % (MAX_Y - MIN_Y)) + MIN_Y) % 256 }
    if placeFood_onSnake s1 s1.tailPtr s1.snakeLength then placeFood s1 rs
    else some (drawFood s1)
  | _ => none

/-! ## Round start (`snake.c` lines 154-176) -/

/-- The `for` loop of `initGame` that lays the snake out, `i = 0 .. 4`. -/
def initGame_body (s : GameState) : GameState :=
  (List.range INITIAL_LENGTH).foldl
    (fun t i => { t with snakeX := store t.snakeX i ((10 + i) % 256),
                         snakeY := store t.snakeY i 11 }) s

/-- Lines 158-165 of `initGame`: `clearScreen` and the scalar assignments. -/
def initGame_reset (s : GameState) : GameState :=
  { clearScreen s with score := 0, snakeLength := INITIAL_LENGTH,
                       headPtr := INITIAL_LENGTH - 1, tailPtr := 0,
                       direction := DIR_RIGHT, gameOver := 0 }

/-- `initGame`, run on the state `s` the previous round (or power-on) left. -/
def initGame (s : GameState) (rs : List Nat) : Option GameState :=
  (placeFood (drawBorder (initGame_body (initGame_reset s))) rs).map drawSnake

/-! ## Input (`snake.c` lines 178-206) -/

/-- `checkInput`; `kQT`, `kAG`, `kYP` are the bytes read from the ports
`0xFBFE`, `0xFDFE` and `0xDFFE` (a key that is down reads as a 0 bit). -/
def checkInput (s : GameState) (kQT kAG kYP : Nat) : GameState :=
  if kQT &&& 0x01 = 0 ∧ s.direction ≠ DIR_DOWN then { s with direction := DIR_UP }
  else if kAG &&& 0x01 = 0 ∧ s.direction ≠ DIR_UP then { s with direction := DIR_DOWN }
  else if kYP &&& 0x02 = 0 ∧ s.direction ≠ DIR_RIGHT then { s with direction := DIR_LEFT }
  else if kYP &&& 0x01 = 0 ∧ s.direction ≠ DIR_LEFT then { s with direction := DIR_RIGHT }
  else s

/-! ## Collision (`snake.c` lines 208-229) -/

/-- The `for` loop of `checkCollision`: `n` iterations are left, ring index `idx`. -/
def checkCollision_body (s : GameState) : Nat → Nat → Nat
  | _, 0 => 0
  | idx, n + 1 =>
    if s.snakeX idx = s.newHeadX ∧ s.snakeY idx = s.newHeadY then 1
    else checkCollision_body s ((idx + 1) &&& (MAX_LENGTH - 1)) n

/-- `checkCollision`, on the candidate head in `newHeadX`, `newHeadY`.  The
loop `for (i = 1; i < snakeLength; i++)` makes `snakeLength - 1` passes. -/
def checkCollision (s : GameState) : Nat :=
  if s.newHeadX < MIN_X ∨ s.newHeadX > MAX_X ∨ s.newHeadY < MIN_Y ∨ s.newHeadY > MAX_Y then 1
  else checkCollision_body s ((s.tailPtr + 1) &&& (MAX_LENGTH - 1)) (s.snakeLength - 1)

/-! ## Movement (`snake.c` lines 231-282) -/

/-- Lines 236-248 of `moveSnake`: the candidate head is the head moved one
step in `direction`, as an 8-bit value. -/
def moveSnake_newHead (s : GameState) : GameState :=
  let oldHeadX := s.snakeX s.headPtr
  let oldHeadY := s.snakeY s.headPtr
  if s.direction = DIR_UP then { s with newHeadX := oldHeadX, newHeadY := (oldHeadY + 255) % 256 }
  else if s.direction = DIR_DOWN then { s with newHeadX := oldHeadX, newHeadY := (oldHeadY + 1) % 256 }
  else if s.direction = DIR_LEFT then { s with newHeadX := (oldHeadX + 255) % 256, newHeadY := oldHeadY }
  else if s.direction = DIR_RIGHT then { s with newHeadX := (oldHeadX + 1) % 256, newHeadY := oldHeadY }
  else { s with newHeadX := oldHeadX, newHeadY := oldHeadY }

/-- Lines 259-270 of `moveSnake`: drop the tail, or grow, score and place food. -/
def moveSnake_eat (s : GameState) (rs : List Nat) : Option GameState :=
  if ¬ (s.newHeadX = s.foodX ∧ s.newHeadY = s.foodY) then
    let s1 := setAttr s (s.snakeX s.tailPtr) (s.snakeY s.tailPtr) 0
    some { s1 with tailPtr := (s1.tailPtr + 1) &&& (MAX_LENGTH - 1) }
  else
    let s1 := if s.snakeLength < MAX_LENGTH - 1
              then { s with snakeLength := (s.snakeLength + 1) % 256 } else s
    placeFood { s1 with score := (s1.score + 10) % 65536 } rs

/-- Lines 272-281 of `moveSnake`: recolour the old head and add the new one. -/
def moveSnake_addHead (s : GameState) (oldHeadX oldHeadY : Nat) : GameState :=
  let s1 := setAttr s oldHeadX oldHeadY (INK_BLACK ||| PAPER_GREEN ||| BRIGHT)
  let hp := (s1.headPtr + 1) &&& (MAX_LENGTH - 1)
  let s2 := { s1 with headPtr := hp,
                      snakeX := store s1.snakeX hp s1.newHeadX,
                      snakeY := store s1.snakeY hp s1.newHeadY }
  setAttr s2 s2.newHeadX s2.newHeadY (INK_BLACK ||| PAPER_YELLOW ||| BRIGHT)

/-- `moveSnake`. -/
def moveSnake (s : GameState) (rs : List Nat) : Option GameState :=
  let oldHeadX := s.snakeX s.headPtr
  let oldHeadY := s.snakeY s.headPtr
  let s1 := moveSnake_newHead s
  if checkCollision s1 ≠ 0 then some { s1 with gameOver := 1 }
  else (moveSnake_eat s1 rs).map (fun s2 => moveSnake_addHead s2 oldHeadX oldHeadY)

/-! ## The main loop (`snake.c` lines 335-339) -/

/-- One pass of `while (!gameOver)`: `checkInput` then `moveSnake`. -/
def tick (s : GameState) (kQT kAG kYP : Nat) (rs : List Nat) : Option GameState :=
  moveSnake (checkInput s kQT kAG kYP) rs

/-- States the program can be in at the top of the inner loop of `main`:
after `initGame`, and after each tick started with `gameOver == 0`. -/
inductive Reachable : GameState → Prop
  | init (s0 : GameState) (rs : List Nat) (s : GameState) :
      initGame s0 rs = some s → Reachable s
  | step (s : GameState) (kQT kAG kYP : Nat) (rs : List Nat) (s' : GameState) :
      Reachable s → s.gameOver = 0 → tick s kQT kAG kYP rs = some s' → Reachable s'

/-- The cell stored in ring slot `(tailPtr + k) mod 128`. -/
def segment (s : GameState) (k : Nat) : Nat × Nat :=
  (s.snakeX ((s.tailPtr + k) % MAX_LENGTH), s.snakeY ((s.tailPtr + k) % MAX_LENGTH))

/-! ## Vocabulary of the claims -/

/-- The reverse of a heading: Up and Down are opposite, Left and Right are. -/
def opposite (d : Nat) : Nat :=
  if d = DIR_UP then DIR_DOWN
  else if d = DIR_DOWN then DIR_UP
  else if d = DIR_LEFT then DIR_RIGHT
  else if d = DIR_RIGHT then DIR_LEFT
  else d

/-- The key of heading `d` is down in the port readings: Q (bit 0 of `kQT`)
for Up, A (bit 0 of `kAG`) for Down, O (bit 1 of `kYP`) for Left, P (bit 0
of `kYP`) for Right. -/
def keyDown (d kQT kAG kYP : Nat) : Bool :=
  if d = DIR_UP then kQT &&& 0x01 = 0
  else if d = DIR_DOWN then kAG &&& 0x01 = 0
  else if d = DIR_LEFT then kYP &&& 0x02 = 0
  else if d = DIR_RIGHT then kYP &&& 0x01 = 0
  else false

/-- The candidate head lies in the inner play rectangle. -/
def inPlayArea (x y : Nat) : Prop :=
  MIN_X ≤ x ∧ x ≤ MAX_X ∧ MIN_Y ≤ y ∧ y ≤ MAX_Y

instance (x y : Nat) : Decidable (inPlayArea x y) := by
  unfold inPlayArea; infer_instance

/-- A concrete round: the snake `initGame` lays out (cells (10..14, 11) in
slots 0..4, heading Right), food at `(fx, fy)` and the given score. -/
def roundStart (fx fy sc : Nat) : GameState :=
  { snakeX := fun i => if i < 5 then 10 + i else 0,
    snakeY := fun i => if i < 5 then 11 else 0,
    headPtr := 4, tailPtr := 0, snakeLength := 5, direction := DIR_RIGHT,
    newHeadX := 0, newHeadY := 0, foodX := fx, foodY := fy, score := sc,
    gameOver := 0, attr := fun _ => 0 }

/-- A concrete snake in the top row of the play area, heading Up: cells
(10..14, 1) in slots 0..4. -/
def topRowUp : GameState :=
  { roundStart 1 5 0 with snakeY := fun i => if i < 5 then 1 else 0, direction := DIR_UP }

/-- A concrete snake at the growth cap: 127 cells laid out row by row
(rows 1..5, alternating left-to-right and right-to-left) in slots 0..126,
head at (7, 5) heading Right, food at `(fx, fy)` and the given score. -/
def longSnake (fx fy sc : Nat) : GameState :=
  { snakeX := fun i =>
      if i < 127 then (if (i / 30) % 2 = 0 then 1 + i % 30 else 30 - i % 30) else 0,
    snakeY := fun i => if i < 127 then 1 + i / 30 else 0,
    headPtr := 126, tailPtr := 0, snakeLength := 127, direction := DIR_RIGHT,
    newHeadX := 0, newHeadY := 0, foodX := fx, foodY := fy, score := sc,
    gameOver := 0, attr := fun _ => 0 }

/-- The first round after power-on when `rand()` returns 0, 0: food at (1, 1). -/
def firstRound : GameState :=
  (initGame powerOn [0, 0]).getD powerOn

/-- The first round after power-on when `rand()` returns 14, 10: the food is
at (15, 11), the cell in front of the head. -/
def firstRoundFoodAhead : GameState :=
  (initGame powerOn [14, 10]).getD powerOn

/-- The state one tick after `firstRoundFoodAhead`, with no key down and
`rand()` returning 14, 10 again. -/
def afterFirstBite : GameState :=
  (tick firstRoundFoodAhead 255 255 255 [14, 10]).getD powerOn

/-- The ring-buffer invariant: `headPtr == (tailPtr + snakeLength - 1) mod
MAX_LENGTH`. -/
def ringInvariant (s : GameState) : Prop :=
  s.headPtr = (s.tailPtr + s.snakeLength - 1) % MAX_LENGTH

instance (s : GameState) : Decidable (ringInvariant s) := by
  unfold ringInvariant; infer_instance

/-- The inner loop of `main` run on a list of inputs (port readings and
`rand()` values of each pass): a pass is made while `gameOver == 0`. -/
def run (s : GameState) : List (Nat × Nat × Nat × List Nat) → Option GameState
  | [] => some s
  | (kQT, kAG, kYP, rs) :: rest =>
    if s.gameOver = 0 then (tick s kQT kAG kYP rs).bind (fun s' => run s' rest)
    else some s

/-- One step in direction `d` from the cell `(nx, ny)` ends on `(hx, hy)`. -/
def stepsTo (d nx ny hx hy : Nat) : Prop :=
  (d = DIR_UP ∧ hx = nx ∧ hy + 1 = ny) ∨ (d = DIR_DOWN ∧ hx = nx ∧ hy = ny + 1) ∨
  (d = DIR_LEFT ∧ hx + 1 = nx ∧ hy = ny) ∨ (d = DIR_RIGHT ∧ hx = nx + 1 ∧ hy = ny)

instance (d nx ny hx hy : Nat) : Decidable (stepsTo d nx ny hx hy) := by
  unfold stepsTo; infer_instance

/-- Ring index of the segment just behind the head, `headPtr - 1` mod 128. -/
def neckPtr (s : GameState) : Nat :=
  (s.headPtr + MAX_LENGTH - 1) % MAX_LENGTH

/-- The direction is the unit step from the neck segment to the head. -/
def neckStep (s : GameState) : Prop :=
  stepsTo s.direction (s.snakeX (neckPtr s)) (s.snakeY (neckPtr s))
    (s.snakeX s.headPtr) (s.snakeY s.headPtr)

instance (s : GameState) : Decidable (neckStep s) := by
  unfold neckStep; infer_instance

/-- What holds of the pointers, the length, the direction, the food and the
buffer in every state of a run: either the ring invariant holds and the
`snakeLength` slots from `tailPtr` are in the play area, or the length is at
the cap and every slot of the ring is. -/
structure InvCore (s : GameState) : Prop where
  tail_lt : s.tailPtr < MAX_LENGTH
  head_lt : s.headPtr < MAX_LENGTH
  len_lo : INITIAL_LENGTH ≤ s.snakeLength
  len_hi : s.snakeLength ≤ MAX_LENGTH - 1
  dir : s.direction ≤ 3
  food : 1 ≤ s.foodX ∧ s.foodX ≤ 29 ∧ 1 ≤ s.foodY ∧ s.foodY ≤ 21
  ring : (ringInvariant s ∧
            ∀ k, k < s.snakeLength → inPlayArea (segment s k).1 (segment s k).2) ∨
         (s.snakeLength = MAX_LENGTH - 1 ∧
            ∀ i, i < MAX_LENGTH → inPlayArea (s.snakeX i) (s.snakeY i))

/-- The invariant of a run: `InvCore`, and while the round is on the
direction is the step from the neck to the head. -/
def Inv (s : GameState) : Prop :=
  InvCore s ∧ (s.gameOver = 0 → neckStep s)

/-- The state after power-on, `initGame` with food at (1, 1), and three
ticks with Q (Up), then O (Left), then A (Down) held: the third tick turns
the snake into its own body. -/
def turnedIntoBody : GameState :=
  (run firstRound [(254, 255, 255, []), (255, 255, 253, []), (255, 254, 255, [])]).getD powerOn

/-- The ring indices the `for` loops of `placeFood` and `drawSnake` read:
`n` of them, from `idx`, each the next one masked with `MAX_LENGTH - 1`. -/
def ringSlots : Nat → Nat → List Nat
  | _, 0 => []
  | idx, n + 1 => idx :: ringSlots ((idx + 1) &&& (MAX_LENGTH - 1)) n

/-- The state after power-on, `initGame` with the food in front of the head,
a tick that eats it (the new food lands under the new head), two ticks
straight on, then A (Down), O (Left), a tick straight on and Q (Up): the
last tick brings the head back onto the food, where the tail still is. -/
def headOnTail : GameState :=
  (run firstRoundFoodAhead
    [(255, 255, 255, [14, 10]), (255, 255, 255, []), (255, 255, 255, []),
     (255, 254, 255, []), (255, 255, 253, []), (255, 255, 255, []),
     (254, 255, 255, [0, 0])]).getD powerOn

/-- The index expression of `setAttr`: `y * 32 + x`. -/
def attrOffset (x y : Nat) : Nat :=
  y * 32 + x

/-- An attribute offset below 768 that is no border cell: not in row 0 or 23,
not in column 0 or 31 (the cells `drawBorder` paints). -/
def interiorOffset (o : Nat) : Prop :=
  o < 768 ∧ 1 ≤ o % 32 ∧ o % 32 ≤ 30 ∧ 1 ≤ o / 32 ∧ o / 32 ≤ 22

/-- The attribute memory after the `setAttr` calls `cs`, each `(x, y, attr)`. -/
def applyCalls (m : Nat → Nat) (cs : List (Nat × Nat × Nat)) : Nat → Nat :=
  cs.foldl (fun m c => store m (attrOffset c.1 c.2.1) c.2.2) m

/-- The `setAttr` call of `drawFood`, as `(x, y, attr)`. -/
def drawFood_calls (s : GameState) : List (Nat × Nat × Nat) :=
  [(s.foodX, s.foodY, INK_BLACK ||| PAPER_RED ||| BRIGHT)]

/-- The `setAttr` calls of the loop of `drawSnake`, in order. -/
def drawSnake_calls (s : GameState) : Nat → Nat → List (Nat × Nat × Nat)
  | _, 0 => []
  | idx, n + 1 =>
    (s.snakeX idx, s.snakeY idx,
      if idx = s.headPtr then INK_BLACK ||| PAPER_YELLOW ||| BRIGHT
      else INK_BLACK ||| PAPER_GREEN ||| BRIGHT) ::
    drawSnake_calls s ((idx + 1) &&& (MAX_LENGTH - 1)) n

/-- The `setAttr` calls of one returning call of `moveSnake`, in order: none
on a collision; else the tail cell (line 261) or the `drawFood` of
`placeFood` (line 131), then the old head (line 273) and the new head
(line 281). -/
def moveSnake_calls (s : GameState) (rs : List Nat) : List (Nat × Nat × Nat) :=
  let c := moveSnake_newHead s
  if checkCollision c ≠ 0 then []
  else
    match moveSnake_eat c rs with
    | none => []
    | some p =>
      (if ¬ (c.newHeadX = c.foodX ∧ c.newHeadY = c.foodY)
       then [(c.snakeX c.tailPtr, c.snakeY c.tailPtr, 0)]
       else drawFood_calls p) ++
      [(s.snakeX s.headPtr, s.snakeY s.headPtr, INK_BLACK ||| PAPER_GREEN ||| BRIGHT),
       (c.newHeadX, c.newHeadY, INK_BLACK ||| PAPER_YELLOW ||| BRIGHT)]

/-- The states in which `main` calls `moveSnake` (lines 335-337): a state at
the top of the inner loop with `gameOver == 0`, after `checkInput`. -/
def InGame (t : GameState) : Prop :=
  ∃ (s : GameState) (kQT kAG kYP : Nat),
    Reachable s ∧ s.gameOver = 0 ∧ t = checkInput s kQT kAG kYP

/-- The state `t` differs from `s` in the attribute memory at most. -/
def attrOnly (s t : GameState) : Prop :=
  t = { s with attr := t.attr }

/-! ## Ring arithmetic -/

theorem and_mask (a : Nat) : a &&& (MAX_LENGTH - 1) = a % 128 :=
  Nat.and_pow_two_sub_one_eq_mod a 7

/-! ## The collision loop -/

theorem checkCollision_body_zero_or_one (s : GameState) (n idx : Nat) :
    checkCollision_body s idx n = 0 ∨ checkCollision_body s idx n = 1 := by
  induction n generalizing idx with
  | zero => left; rfl
  | succ n ih =>
    unfold checkCollision_body
    split
    · right; rfl
    · exact ih _

/-- The loop answers 0 exactly when none of the `n` ring slots from `idx`
holds the candidate head. -/
theorem checkCollision_body_eq_zero_iff (s : GameState) (n idx : Nat) (hidx : idx < 128) :
    checkCollision_body s idx n = 0 ↔
      ∀ k, k < n → ¬ (s.snakeX ((idx + k) % 128) = s.newHeadX ∧
                       s.snakeY ((idx + k) % 128) = s.newHeadY) := by
  induction n generalizing idx with
  | zero =>
    constructor
    · intro _ k hk; omega
    · intro _; rfl
  | succ n ih =>
    unfold checkCollision_body
    rw [and_mask]
    have hnext : (idx + 1) % 128 < 128 := Nat.mod_lt _ (by decide)
    have hshift : ∀ k, ((idx + 1) % 128 + k) % 128 = (idx + (k + 1)) % 128 := by
      intro k; omega
    have h0 : (idx + 0) % 128 = idx := by omega
    split
    · rename_i hhit
      constructor
      · intro h; exact absurd h (by decide)
      · intro h
        exact absurd (by rw [h0]; exact hhit) (h 0 (by omega))
    · rename_i hmiss
      rw [ih _ hnext]
      constructor
      · intro h k hk
        cases k with
        | zero => rw [h0]; exact hmiss
        | succ j =>
          have := h j (by omega)
          rw [hshift] at this
          exact this
      · intro h k hk
        rw [hshift]
        exact h (k + 1) (by omega)

/-- `checkCollision` answers 0 or 1. -/
theorem checkCollision_zero_or_one (s : GameState) :
    checkCollision s = 0 ∨ checkCollision s = 1 := by
  unfold checkCollision
  split
  · right; rfl
  · exact checkCollision_body_zero_or_one _ _ _

/-- `checkCollision` answers 0 exactly when the candidate is in the play
area and differs from the segments at ring positions `tailPtr + k`,
`1 ≤ k < snakeLength`. -/
theorem checkCollision_eq_zero_iff (s : GameState) :
    checkCollision s = 0 ↔
      inPlayArea s.newHeadX s.newHeadY ∧
      ∀ k, 1 ≤ k → k < s.snakeLength → segment s k ≠ (s.newHeadX, s.newHeadY) := by
  unfold checkCollision inPlayArea segment
  rw [and_mask]
  have hnext : (s.tailPtr + 1) % 128 < 128 := Nat.mod_lt _ (by decide)
  have hshift : ∀ k, ((s.tailPtr + 1) % 128 + k) % 128 = (s.tailPtr + (k + 1)) % 128 := by
    intro k; omega
  split
  · rename_i hout
    constructor
    · intro h; exact absurd h (by decide)
    · rintro ⟨⟨h1, h2, h3, h4⟩, _⟩
      simp only [MIN_X, MAX_X, MIN_Y, MAX_Y] at hout h1 h2 h3 h4
      omega
  · rename_i hin
    rw [checkCollision_body_eq_zero_iff _ _ _ hnext]
    simp only [MIN_X, MAX_X, MIN_Y, MAX_Y] at hin ⊢
    constructor
    · intro h
      refine ⟨by omega, ?_⟩
      intro k hk1 hk hseg
      obtain ⟨j, rfl⟩ : ∃ j, k = j + 1 := ⟨k - 1, by omega⟩
      have := h j (by omega)
      rw [hshift] at this
      simp only [Prod.mk.injEq] at hseg
      exact this hseg
    · rintro ⟨_, h⟩ k hk hhit
      rw [hshift] at hhit
      exact h (k + 1) (by omega) (by omega) (by simp only [Prod.mk.injEq]; exact hhit)

/-- The wall test of `checkCollision`. -/
theorem checkCollision_of_outside (s : GameState)
    (hout : s.newHeadX < MIN_X ∨ s.newHeadX > MAX_X ∨ s.newHeadY < MIN_Y ∨ s.newHeadY > MAX_Y) :
    checkCollision s = 1 := by
  unfold checkCollision
  rw [if_pos hout]

/-! ## Claims about `checkCollision` -/

/-- C4: whatever the snake, `checkCollision` answers 1 for a candidate head
with `newHeadX < MIN_X`, `newHeadX > MAX_X`, `newHeadY < MIN_Y` or
`newHeadY > MAX_Y`; and the candidate `moveSnake` computes from a head
coordinate 0 by decrementing (heading Up from row 0, Left from column 0)
is the wrapped value 255, for which `checkCollision` answers 1. -/
theorem checkCollision_wall :
    (∀ s : GameState,
      (s.newHeadX < MIN_X ∨ s.newHeadX > MAX_X ∨ s.newHeadY < MIN_Y ∨ s.newHeadY > MAX_Y) →
      checkCollision s = 1) ∧
    (∀ s : GameState, s.direction = DIR_UP → s.snakeY s.headPtr = 0 →
      (moveSnake_newHead s).newHeadY = 255 ∧ checkCollision (moveSnake_newHead s) = 1) ∧
    (∀ s : GameState, s.direction = DIR_LEFT → s.snakeX s.headPtr = 0 →
      (moveSnake_newHead s).newHeadX = 255 ∧ checkCollision (moveSnake_newHead s) = 1) := by
  have hwall := checkCollision_of_outside
  refine ⟨hwall, ?_, ?_⟩
  · intro s hd hy
    have hny : (moveSnake_newHead s).newHeadY = 255 := by
      simp [moveSnake_newHead, hd, hy]
    refine ⟨hny, hwall _ ?_⟩
    rw [hny]; right; right; right; decide
  · intro s hd hx
    have hnx : (moveSnake_newHead s).newHeadX = 255 := by
      simp [moveSnake_newHead, hd, hx]
    refine ⟨hnx, hwall _ ?_⟩
    rw [hnx]; right; left; decide

/-- A candidate at column 31 is a wall hit for the round-start snake. -/
theorem checkCollision_wall_witness :
    checkCollision { roundStart 1 1 0 with newHeadX := 31, newHeadY := 11 } = 1 :=
  checkCollision_wall.1 { roundStart 1 1 0 with newHeadX := 31, newHeadY := 11 }
    (by decide)

/-- C5: for a candidate head inside the play rectangle that equals the
segment stored at ring position `(tailPtr + k) mod 128` for some `k` with
`1 ≤ k < snakeLength`, `checkCollision` answers 1. -/
theorem checkCollision_self (s : GameState) (k : Nat)
    (_hin : inPlayArea s.newHeadX s.newHeadY)
    (hk1 : 1 ≤ k) (hk : k < s.snakeLength)
    (hseg : segment s k = (s.newHeadX, s.newHeadY)) :
    checkCollision s = 1 := by
  rcases checkCollision_zero_or_one s with h0 | h1
  · exact absurd hseg (((checkCollision_eq_zero_iff s).1 h0).2 k hk1 hk)
  · exact h1

/-- The round-start snake with candidate (12, 11), its segment number 2. -/
theorem checkCollision_self_witness :
    checkCollision { roundStart 1 1 0 with newHeadX := 12, newHeadY := 11 } = 1 :=
  checkCollision_self { roundStart 1 1 0 with newHeadX := 12, newHeadY := 11 } 2
    (by decide) (by decide) (by decide) (by decide)

/-! ## Claims about `checkInput` -/

/-- C6: for a current direction `d` among Up, Down, Left, Right and any port
readings, the direction after `checkInput` is not the opposite of `d`; and
when the key of the opposite direction is down and no other direction key
is, the direction after `checkInput` is `d`. -/
theorem checkInput_no_reverse (s : GameState) (kQT kAG kYP : Nat)
    (hd : s.direction = DIR_UP ∨ s.direction = DIR_DOWN ∨
          s.direction = DIR_LEFT ∨ s.direction = DIR_RIGHT) :
    (checkInput s kQT kAG kYP).direction ≠ opposite s.direction ∧
    ((∀ e, keyDown e kQT kAG kYP = true ↔ e = opposite s.direction) →
      (checkInput s kQT kAG kYP).direction = s.direction) := by
  constructor
  · rcases hd with h | h | h | h <;>
      simp only [checkInput, opposite, h] <;> split_ifs <;> simp_all
  · intro honly
    have hU := honly DIR_UP
    have hD := honly DIR_DOWN
    have hL := honly DIR_LEFT
    have hR := honly DIR_RIGHT
    rcases hd with h | h | h | h <;>
      simp [keyDown, opposite, h] at hU hD hL hR <;>
      simp [checkInput, h, hU, hD, hL, hR]

/-- Heading Right with only O (Left) down: the heading stays Right. -/
theorem checkInput_no_reverse_witness :
    (checkInput (roundStart 1 1 0) 255 255 253).direction ≠ opposite (roundStart 1 1 0).direction ∧
    (checkInput (roundStart 1 1 0) 255 255 253).direction = (roundStart 1 1 0).direction :=
  ⟨(checkInput_no_reverse (roundStart 1 1 0) 255 255 253 (by decide)).1,
   (checkInput_no_reverse (roundStart 1 1 0) 255 255 253 (by decide)).2 (by
      intro e
      by_cases h0 : e = 0
      · subst h0; decide
      by_cases h1 : e = 1
      · subst h1; decide
      by_cases h2 : e = 2
      · subst h2; decide
      by_cases h3 : e = 3
      · subst h3; decide
      simp [keyDown, opposite, roundStart, h0, h1, h2, h3])⟩

/-! ## Frame of the candidate computation -/

theorem moveSnake_newHead_frame (s : GameState) :
    (moveSnake_newHead s).snakeX = s.snakeX ∧ (moveSnake_newHead s).snakeY = s.snakeY ∧
    (moveSnake_newHead s).headPtr = s.headPtr ∧ (moveSnake_newHead s).tailPtr = s.tailPtr ∧
    (moveSnake_newHead s).snakeLength = s.snakeLength ∧
    (moveSnake_newHead s).direction = s.direction ∧
    (moveSnake_newHead s).foodX = s.foodX ∧ (moveSnake_newHead s).foodY = s.foodY ∧
    (moveSnake_newHead s).score = s.score ∧ (moveSnake_newHead s).gameOver = s.gameOver ∧
    (moveSnake_newHead s).attr = s.attr := by
  unfold moveSnake_newHead
  split_ifs <;> simp

/-! ## Claims about `moveSnake`: collision -/

/-- C7: when `checkCollision` answers 1 for the candidate head, `moveSnake`
returns with `gameOver = 1` and with `snakeX`, `snakeY`, `headPtr`,
`tailPtr`, `snakeLength`, `direction`, `score`, the food position and the
attribute memory as they were.  A snake heading Up with its head in row
`MIN_Y` is such a state: `moveSnake`, and a whole tick with no direction key
down, end the round. -/
theorem moveSnake_collision :
    (∀ (s : GameState) (rs : List Nat), checkCollision (moveSnake_newHead s) = 1 →
      ∃ s', moveSnake s rs = some s' ∧ s'.gameOver = 1 ∧
        s'.snakeX = s.snakeX ∧ s'.snakeY = s.snakeY ∧ s'.headPtr = s.headPtr ∧
        s'.tailPtr = s.tailPtr ∧ s'.snakeLength = s.snakeLength ∧
        s'.direction = s.direction ∧ s'.score = s.score ∧
        s'.foodX = s.foodX ∧ s'.foodY = s.foodY ∧ s'.attr = s.attr) ∧
    (∀ (s : GameState) (rs : List Nat), s.direction = DIR_UP → s.snakeY s.headPtr = MIN_Y →
      checkCollision (moveSnake_newHead s) = 1 ∧
      ∃ s', moveSnake s rs = some s' ∧ s'.gameOver = 1) ∧
    (∀ (s : GameState) (kQT kAG kYP : Nat) (rs : List Nat),
      s.direction = DIR_UP → s.snakeY s.headPtr = MIN_Y →
      (∀ e, keyDown e kQT kAG kYP = false) →
      ∃ s', tick s kQT kAG kYP rs = some s' ∧ s'.gameOver = 1) := by
  have hgen : ∀ (s : GameState) (rs : List Nat), checkCollision (moveSnake_newHead s) = 1 →
      ∃ s', moveSnake s rs = some s' ∧ s'.gameOver = 1 ∧
        s'.snakeX = s.snakeX ∧ s'.snakeY = s.snakeY ∧ s'.headPtr = s.headPtr ∧
        s'.tailPtr = s.tailPtr ∧ s'.snakeLength = s.snakeLength ∧
        s'.direction = s.direction ∧ s'.score = s.score ∧
        s'.foodX = s.foodX ∧ s'.foodY = s.foodY ∧ s'.attr = s.attr := by
    intro s rs hc
    obtain ⟨f1, f2, f3, f4, f5, f6, f7, f8, f9, _, f11⟩ := moveSnake_newHead_frame s
    refine ⟨{ moveSnake_newHead s with gameOver := 1 }, ?_, rfl, f1, f2, f3, f4, f5, f6, f9, f7, f8, f11⟩
    unfold moveSnake
    simp only [hc]
    rfl
  have hup : ∀ s : GameState, s.direction = DIR_UP → s.snakeY s.headPtr = MIN_Y →
      checkCollision (moveSnake_newHead s) = 1 := by
    intro s hd hy
    apply checkCollision_of_outside
    have : (moveSnake_newHead s).newHeadY = 0 := by
      simp [moveSnake_newHead, hd, hy]
    rw [this]; right; right; left; decide
  refine ⟨hgen, ?_, ?_⟩
  · intro s rs hd hy
    obtain ⟨s', h, hg, _⟩ := hgen s rs (hup s hd hy)
    exact ⟨hup s hd hy, s', h, hg⟩
  · intro s kQT kAG kYP rs hd hy hkeys
    have hL := hkeys DIR_LEFT
    have hR := hkeys DIR_RIGHT
    simp [keyDown] at hL hR
    have hci : (checkInput s kQT kAG kYP).direction = DIR_UP ∧
        (checkInput s kQT kAG kYP).snakeY = s.snakeY ∧
        (checkInput s kQT kAG kYP).headPtr = s.headPtr := by
      unfold checkInput
      split_ifs <;> simp_all
    obtain ⟨c1, c2, c3⟩ := hci
    have hy' : (checkInput s kQT kAG kYP).snakeY (checkInput s kQT kAG kYP).headPtr = MIN_Y := by
      rw [c2, c3]; exact hy
    obtain ⟨s', h, hg, _⟩ := hgen (checkInput s kQT kAG kYP) rs (hup _ c1 hy')
    exact ⟨s', h, hg⟩

/-- The snake of `topRowUp` (heading Up, head at (14, 1)) ends the round in
one call, with the state otherwise as it was. -/
theorem moveSnake_collision_witness :
    checkCollision (moveSnake_newHead topRowUp) = 1 ∧
    ∃ s', moveSnake topRowUp [] = some s' ∧ s'.gameOver = 1 ∧
        s'.snakeX = topRowUp.snakeX ∧ s'.snakeY = topRowUp.snakeY ∧
        s'.headPtr = topRowUp.headPtr ∧
        s'.tailPtr = topRowUp.tailPtr ∧ s'.snakeLength = topRowUp.snakeLength ∧
        s'.direction = topRowUp.direction ∧ s'.score = topRowUp.score ∧
        s'.foodX = topRowUp.foodX ∧ s'.foodY = topRowUp.foodY ∧ s'.attr = topRowUp.attr :=
  ⟨by decide, moveSnake_collision.1 topRowUp [] (by decide)⟩

/-! ## Frame of the display routines -/

theorem attrOnly_refl (s : GameState) : attrOnly s s := rfl

theorem attrOnly_trans {s t u : GameState} (h1 : attrOnly s t) (h2 : attrOnly t u) :
    attrOnly s u := by
  unfold attrOnly at *
  rw [h2, h1]

theorem attrOnly_setAttr (s : GameState) (x y a : Nat) : attrOnly s (setAttr s x y a) := rfl

theorem attrOnly_foldl (g : GameState → Nat → GameState)
    (hg : ∀ t x, attrOnly t (g t x)) (l : List Nat) (s : GameState) :
    attrOnly s (l.foldl g s) := by
  induction l generalizing s with
  | nil => exact attrOnly_refl s
  | cons x l ih => exact attrOnly_trans (hg s x) (ih (g s x))

theorem attrOnly_drawBorder (s : GameState) : attrOnly s (drawBorder s) := by
  unfold drawBorder
  exact attrOnly_trans
    (attrOnly_trans
      (attrOnly_trans (attrOnly_foldl _ (fun t x => attrOnly_setAttr t _ _ _) _ _)
        (attrOnly_foldl _ (fun t x => attrOnly_setAttr t _ _ _) _ _))
      (attrOnly_foldl _ (fun t x => attrOnly_setAttr t _ _ _) _ _))
    (attrOnly_foldl _ (fun t x => attrOnly_setAttr t _ _ _) _ _)

theorem attrOnly_drawSnake_loop (n : Nat) (s : GameState) (idx : Nat) :
    attrOnly s (drawSnake_loop s idx n) := by
  induction n generalizing s idx with
  | zero => exact attrOnly_refl s
  | succ n ih =>
    unfold drawSnake_loop
    split_ifs
    · exact attrOnly_trans (attrOnly_setAttr s _ _ _) (ih _ _)
    · exact attrOnly_trans (attrOnly_setAttr s _ _ _) (ih _ _)

theorem attrOnly_drawSnake (s : GameState) : attrOnly s (drawSnake s) :=
  attrOnly_drawSnake_loop _ _ _

theorem attrOnly_drawFood (s : GameState) : attrOnly s (drawFood s) := rfl

theorem attrOnly_clearScreen (s : GameState) : attrOnly s (clearScreen s) := rfl

/-! ## The food loop -/

/-- The `for` loop of `placeFood` finds no hit exactly when none of the `n`
ring slots from `idx` holds the food cell. -/
theorem placeFood_onSnake_eq_false_iff (s : GameState) (n idx : Nat) (hidx : idx < 128) :
    placeFood_onSnake s idx n = false ↔
      ∀ k, k < n → ¬ (s.snakeX ((idx + k) % 128) = s.foodX ∧
                       s.snakeY ((idx + k) % 128) = s.foodY) := by
  induction n generalizing idx with
  | zero =>
    constructor
    · intro _ k hk; omega
    · intro _; rfl
  | succ n ih =>
    unfold placeFood_onSnake
    rw [and_mask]
    have hnext : (idx + 1) % 128 < 128 := Nat.mod_lt _ (by decide)
    have hshift : ∀ k, ((idx + 1) % 128 + k) % 128 = (idx + (k + 1)) % 128 := by
      intro k; omega
    have h0 : (idx + 0) % 128 = idx := by omega
    split
    · rename_i hhit
      constructor
      · intro h; exact absurd h (by decide)
      · intro h
        exact absurd (by rw [h0]; exact hhit) (h 0 (by omega))
    · rename_i hmiss
      rw [ih _ hnext]
      constructor
      · intro h k hk
        cases k with
        | zero => rw [h0]; exact hmiss
        | succ j =>
          have := h j (by omega)
          rw [hshift] at this
          exact this
      · intro h k hk
        rw [hshift]
        exact h (k + 1) (by omega)

/-- What a terminating `placeFood` returns: the state with the food at some
cell `(fx, fy)` of `1..29 x 1..21` that passed the `for` loop, drawn. -/
theorem placeFood_spec (s : GameState) (rs : List Nat) (s' : GameState)
    (h : placeFood s rs = some s') :
    ∃ fx fy, 1 ≤ fx ∧ fx ≤ 29 ∧ 1 ≤ fy ∧ fy ≤ 21 ∧
      placeFood_onSnake { s with foodX := fx, foodY := fy } s.tailPtr s.snakeLength = false ∧
      s' = drawFood { s with foodX := fx, foodY := fy } := by
  induction s, rs using placeFood.induct with
  | case1 s r1 r2 rs s1 hhit ih =>
    rw [placeFood, if_pos hhit] at h
    obtain ⟨fx, fy, h1, h2, h3, h4, h5, h6⟩ := ih h
    exact ⟨fx, fy, h1, h2, h3, h4, h5, h6⟩
  | case2 s r1 r2 rs s1 hmiss =>
    rw [placeFood, if_neg hmiss] at h
    have h' : s' = drawFood s1 := (Option.some.inj h).symm
    have hx : (r1 % (MAX_X - MIN_X) + MIN_X) % 256 = r1 % 29 + 1 := by
      simp only [MAX_X, MIN_X]; omega
    have hy : (r2 % (MAX_Y - MIN_Y) + MIN_Y) % 256 = r2 % 21 + 1 := by
      simp only [MAX_Y, MIN_Y]; omega
    refine ⟨r1 % 29 + 1, r2 % 21 + 1, by omega, ?_, by omega, ?_, ?_, ?_⟩
    · have := Nat.mod_lt r1 (show 0 < 29 by decide); omega
    · have := Nat.mod_lt r2 (show 0 < 21 by decide); omega
    · rw [← hx, ← hy]
      simpa using hmiss
    · rw [← hx, ← hy]; exact h'
  | case3 t s hne =>
    unfold placeFood at h
    split at h
    · rename_i r1 r2 rs
      exact absurd rfl (fun e => hne r1 r2 rs e)
    · exact absurd h (by simp)

/-- A single accepted pass: for a cell `(fx, fy)` of `1..29 x 1..21` that
passes the `for` loop, the two values `fx - 1`, `fy - 1` of `rand()` make
`placeFood` return with the food there. -/
theorem placeFood_accept (s : GameState) (fx fy : Nat) (rs : List Nat)
    (hx1 : 1 ≤ fx) (hx2 : fx ≤ 29) (hy1 : 1 ≤ fy) (hy2 : fy ≤ 21)
    (hfree : placeFood_onSnake { s with foodX := fx, foodY := fy }
      s.tailPtr s.snakeLength = false) :
    placeFood s ((fx - 1) :: (fy - 1) :: rs) = some (drawFood { s with foodX := fx, foodY := fy }) := by
  have hx : ((fx - 1) % (MAX_X - MIN_X) + MIN_X) % 256 = fx := by
    simp only [MAX_X, MIN_X]; omega
  have hy : ((fy - 1) % (MAX_Y - MIN_Y) + MIN_Y) % 256 = fy := by
    simp only [MAX_Y, MIN_Y]; omega
  rw [placeFood]
  simp only [hx, hy, hfree]
  rfl

/-- A terminating `placeFood` leaves the food off the `snakeLength` ring
slots from `tailPtr`. -/
theorem placeFood_clear (s : GameState) (rs : List Nat) (s' : GameState)
    (htail : s.tailPtr < MAX_LENGTH) (h : placeFood s rs = some s') :
    ∀ k, k < s.snakeLength → segment s k ≠ (s'.foodX, s'.foodY) := by
  obtain ⟨fx, fy, _, _, _, _, hfree, rfl⟩ := placeFood_spec s rs s' h
  intro k hk hseg
  rw [placeFood_onSnake_eq_false_iff _ _ _ htail] at hfree
  apply hfree k hk
  simp only [segment, drawFood, setAttr, Prod.mk.injEq] at hseg
  exact hseg

/-! ## Claims about `placeFood` -/

/-- C8: for a snake state whose `tailPtr` is a ring index and random values
on which `placeFood` terminates, the resulting `(foodX, foodY)` differs from
each of the `snakeLength` segments stored at ring positions `tailPtr`,
`tailPtr + 1`, ..., `tailPtr + snakeLength - 1` (mod 128) at the time of the
call; the call leaves the buffer, `tailPtr` and `snakeLength` as they were. -/
theorem placeFood_off_snake (s : GameState) (rs : List Nat) (s' : GameState)
    (htail : s.tailPtr < MAX_LENGTH) (h : placeFood s rs = some s') :
    (∀ k, k < s.snakeLength → segment s k ≠ (s'.foodX, s'.foodY)) ∧
    s'.snakeX = s.snakeX ∧ s'.snakeY = s.snakeY ∧ s'.tailPtr = s.tailPtr ∧
    s'.snakeLength = s.snakeLength := by
  refine ⟨placeFood_clear s rs s' htail h, ?_⟩
  obtain ⟨fx, fy, _, _, _, _, _, rfl⟩ := placeFood_spec s rs s' h
  exact ⟨rfl, rfl, rfl, rfl⟩

/-- On the round-start snake the values 11, 10 (cell (12, 11), on the snake)
are rejected and 0, 0 are accepted: the food lands on (1, 1), off the snake. -/
theorem placeFood_off_snake_witness :
    (∀ k, k < (roundStart 9 9 0).snakeLength →
      segment (roundStart 9 9 0) k ≠
        ((drawFood { roundStart 9 9 0 with foodX := 1, foodY := 1 }).foodX,
         (drawFood { roundStart 9 9 0 with foodX := 1, foodY := 1 }).foodY)) ∧
    (drawFood { roundStart 9 9 0 with foodX := 1, foodY := 1 }).snakeX = (roundStart 9 9 0).snakeX ∧
    (drawFood { roundStart 9 9 0 with foodX := 1, foodY := 1 }).snakeY = (roundStart 9 9 0).snakeY ∧
    (drawFood { roundStart 9 9 0 with foodX := 1, foodY := 1 }).tailPtr = (roundStart 9 9 0).tailPtr ∧
    (drawFood { roundStart 9 9 0 with foodX := 1, foodY := 1 }).snakeLength =
      (roundStart 9 9 0).snakeLength :=
  placeFood_off_snake (roundStart 9 9 0) [11, 10, 0, 0]
    (drawFood { roundStart 9 9 0 with foodX := 1, foodY := 1 }) (by decide) (by
      rw [placeFood, if_pos (by decide), placeFood, if_neg (by decide)]
      rfl)

/-- C10 (the code falls short): on the round-start snake the cell (30, 22),
corner of the play rectangle and free of the snake, is returned for no
sequence of `rand()` values, and neither is any cell of column `MAX_X` or of
row `MAX_Y`: `rand() % (MAX_X - MIN_X) + MIN_X` stops at 29 and
`rand() % (MAX_Y - MIN_Y) + MIN_Y` at 21. -/
theorem placeFood_never_last_column_or_row :
    inPlayArea 30 22 ∧
    placeFood_onSnake { roundStart 9 9 0 with foodX := 30, foodY := 22 }
      (roundStart 9 9 0).tailPtr (roundStart 9 9 0).snakeLength = false ∧
    ¬ ∃ rs s', placeFood (roundStart 9 9 0) rs = some s' ∧
        (s'.foodX = MAX_X ∨ s'.foodY = MAX_Y) := by
  refine ⟨by decide, by decide, ?_⟩
  rintro ⟨rs, s', h, hedge⟩
  obtain ⟨fx, fy, _, hx, _, hy, _, rfl⟩ := placeFood_spec _ rs s' h
  simp only [drawFood, setAttr, MAX_X, MAX_Y] at hedge
  omega

/-! ## Round start -/

theorem initGame_body_snakeX (s : GameState) (i : Nat) :
    (initGame_body s).snakeX i = if i < 5 then 10 + i else s.snakeX i := by
  have h : initGame_body s =
      (([0, 1, 2, 3, 4] : List Nat).foldl
        (fun t i => { t with snakeX := store t.snakeX i ((10 + i) % 256),
                             snakeY := store t.snakeY i 11 }) s) := rfl
  rw [h]
  simp only [List.foldl, store]
  split_ifs <;> omega

theorem initGame_body_snakeY (s : GameState) (i : Nat) :
    (initGame_body s).snakeY i = if i < 5 then 11 else s.snakeY i := by
  have h : initGame_body s =
      (([0, 1, 2, 3, 4] : List Nat).foldl
        (fun t i => { t with snakeX := store t.snakeX i ((10 + i) % 256),
                             snakeY := store t.snakeY i 11 }) s) := rfl
  rw [h]
  simp only [List.foldl, store]
  split_ifs <;> omega

theorem initGame_body_frame (s : GameState) :
    (initGame_body s).headPtr = s.headPtr ∧ (initGame_body s).tailPtr = s.tailPtr ∧
    (initGame_body s).snakeLength = s.snakeLength ∧
    (initGame_body s).direction = s.direction ∧ (initGame_body s).score = s.score ∧
    (initGame_body s).gameOver = s.gameOver :=
  ⟨rfl, rfl, rfl, rfl, rfl, rfl⟩

/-- Fields an attribute write leaves alone. -/
theorem attrOnly_fields {s t : GameState} (h : attrOnly s t) :
    t.snakeX = s.snakeX ∧ t.snakeY = s.snakeY ∧ t.headPtr = s.headPtr ∧
    t.tailPtr = s.tailPtr ∧ t.snakeLength = s.snakeLength ∧ t.direction = s.direction ∧
    t.newHeadX = s.newHeadX ∧ t.newHeadY = s.newHeadY ∧ t.foodX = s.foodX ∧
    t.foodY = s.foodY ∧ t.score = s.score ∧ t.gameOver = s.gameOver := by
  have h' : t = { s with attr := t.attr } := h
  refine ⟨?_, ?_, ?_, ?_, ?_, ?_, ?_, ?_, ?_, ?_, ?_, ?_⟩ <;> rw [h']

/-- Fields `placeFood` leaves alone. -/
theorem placeFood_frame (s : GameState) (rs : List Nat) (s' : GameState)
    (h : placeFood s rs = some s') :
    s'.snakeX = s.snakeX ∧ s'.snakeY = s.snakeY ∧ s'.headPtr = s.headPtr ∧
    s'.tailPtr = s.tailPtr ∧ s'.snakeLength = s.snakeLength ∧ s'.direction = s.direction ∧
    s'.newHeadX = s.newHeadX ∧ s'.newHeadY = s.newHeadY ∧
    s'.score = s.score ∧ s'.gameOver = s.gameOver := by
  obtain ⟨fx, fy, _, _, _, _, _, rfl⟩ := placeFood_spec s rs s' h
  exact ⟨rfl, rfl, rfl, rfl, rfl, rfl, rfl, rfl, rfl, rfl⟩

/-- The state `initGame` hands to the main loop. -/
theorem initGame_spec (s0 : GameState) (rs : List Nat) (s : GameState)
    (h : initGame s0 rs = some s) :
    s.headPtr = 4 ∧ s.tailPtr = 0 ∧ s.snakeLength = 5 ∧ s.direction = DIR_RIGHT ∧
    s.gameOver = 0 ∧ s.score = 0 ∧
    (∀ i, s.snakeX i = if i < 5 then 10 + i else s0.snakeX i) ∧
    (∀ i, s.snakeY i = if i < 5 then 11 else s0.snakeY i) ∧
    1 ≤ s.foodX ∧ s.foodX ≤ 29 ∧ 1 ≤ s.foodY ∧ s.foodY ≤ 21 ∧
    (∀ k, k < 5 → segment s k ≠ (s.foodX, s.foodY)) := by
  unfold initGame at h
  simp only [Option.map_eq_some'] at h
  obtain ⟨p, hp, rfl⟩ := h
  obtain ⟨b1, b2, b3, b4, b5, b6, _, _, _, _, b11, b12⟩ :=
    attrOnly_fields (attrOnly_drawBorder (initGame_body (initGame_reset s0)))
  obtain ⟨d1, d2, d3, d4, d5, d6, _, _, d9, d10, d11, d12⟩ :=
    attrOnly_fields (attrOnly_drawSnake p)
  obtain ⟨p1, p2, p3, p4, p5, p6, _, _, p9, p10⟩ := placeFood_frame _ rs p hp
  have hoff := placeFood_clear _ rs p
    (by rw [b4]; exact (by decide : (0 : Nat) < 128)) hp
  obtain ⟨fx, fy, hx1, hx2, hy1, hy2, _, hpf⟩ := placeFood_spec _ rs p hp
  have hfx : p.foodX = fx := by rw [hpf]; rfl
  have hfy : p.foodY = fy := by rw [hpf]; rfl
  refine ⟨by rw [d3, p3, b3]; rfl, by rw [d4, p4, b4]; rfl, by rw [d5, p5, b5]; rfl,
    by rw [d6, p6, b6]; rfl, by rw [d12, p10, b12]; rfl, by rw [d11, p9, b11]; rfl,
    ?_, ?_, by rw [d9, hfx]; exact hx1, by rw [d9, hfx]; exact hx2,
    by rw [d10, hfy]; exact hy1, by rw [d10, hfy]; exact hy2, ?_⟩
  · intro i
    rw [d1, p1, b1, initGame_body_snakeX]
    rfl
  · intro i
    rw [d2, p2, b2, initGame_body_snakeY]
    rfl
  · intro k hk
    have := hoff k (by rw [b5]; exact hk)
    simp only [segment] at this ⊢
    rw [d1, d2, d4, d9, d10, p1, p2, p4]
    exact this

/-! ## One call of `moveSnake` -/

/-- With no direction key down `checkInput` changes nothing. -/
theorem checkInput_idle (s : GameState) (kQT kAG kYP : Nat)
    (hkeys : ∀ e, keyDown e kQT kAG kYP = false) : checkInput s kQT kAG kYP = s := by
  have hU := hkeys DIR_UP
  have hD := hkeys DIR_DOWN
  have hL := hkeys DIR_LEFT
  have hR := hkeys DIR_RIGHT
  simp [keyDown] at hU hD hL hR
  simp [checkInput, hU, hD, hL, hR]

/-- The move that neither collides nor eats: the state `moveSnake` returns. -/
theorem moveSnake_plain_spec (s : GameState) (rs : List Nat)
    (hc : checkCollision (moveSnake_newHead s) = 0)
    (hne : ((moveSnake_newHead s).newHeadX, (moveSnake_newHead s).newHeadY) ≠
      (s.foodX, s.foodY)) :
    ∃ s', moveSnake s rs = some s' ∧
      s'.snakeLength = s.snakeLength ∧ s'.score = s.score ∧
      s'.foodX = s.foodX ∧ s'.foodY = s.foodY ∧
      s'.tailPtr = (s.tailPtr + 1) % MAX_LENGTH ∧
      s'.headPtr = (s.headPtr + 1) % MAX_LENGTH ∧
      s'.snakeX = store s.snakeX ((s.headPtr + 1) % MAX_LENGTH) (moveSnake_newHead s).newHeadX ∧
      s'.snakeY = store s.snakeY ((s.headPtr + 1) % MAX_LENGTH) (moveSnake_newHead s).newHeadY ∧
      s'.direction = s.direction ∧ s'.gameOver = s.gameOver := by
  obtain ⟨f1, f2, f3, f4, f5, f6, f7, f8, f9, f10, _⟩ := moveSnake_newHead_frame s
  have hne' : ¬ ((moveSnake_newHead s).newHeadX = (moveSnake_newHead s).foodX ∧
      (moveSnake_newHead s).newHeadY = (moveSnake_newHead s).foodY) := by
    rw [f7, f8]
    intro h
    exact hne (by rw [h.1, h.2])
  refine ⟨moveSnake_addHead
      { setAttr (moveSnake_newHead s)
          ((moveSnake_newHead s).snakeX (moveSnake_newHead s).tailPtr)
          ((moveSnake_newHead s).snakeY (moveSnake_newHead s).tailPtr) 0 with
        tailPtr := ((moveSnake_newHead s).tailPtr + 1) &&& (MAX_LENGTH - 1) }
      (s.snakeX s.headPtr) (s.snakeY s.headPtr), ?_, ?_⟩
  · unfold moveSnake
    simp only [hc, ne_eq, not_true_eq_false, if_false]
    unfold moveSnake_eat
    rw [if_pos hne']
    rfl
  · have hm : ∀ a : Nat, a &&& 127 = a % MAX_LENGTH := and_mask
    simp [moveSnake_addHead, setAttr, hm, f1, f2, f3, f4, f5, f6, f7, f8, f9, f10]

/-- The move that eats: `moveSnake` returns exactly when `placeFood` does, on
the state with the length grown below the cap and the score raised. -/
theorem moveSnake_eat_spec (s : GameState) (rs : List Nat)
    (hc : checkCollision (moveSnake_newHead s) = 0)
    (hfood : ((moveSnake_newHead s).newHeadX, (moveSnake_newHead s).newHeadY) =
      (s.foodX, s.foodY)) :
    moveSnake s rs =
      (placeFood
        { moveSnake_newHead s with
          snakeLength := if s.snakeLength < MAX_LENGTH - 1 then (s.snakeLength + 1) % 256
                         else s.snakeLength,
          score := (s.score + 10) % 65536 } rs).map
        (fun p => moveSnake_addHead p (s.snakeX s.headPtr) (s.snakeY s.headPtr)) := by
  obtain ⟨f1, f2, f3, f4, f5, f6, f7, f8, f9, f10, _⟩ := moveSnake_newHead_frame s
  have hx : (moveSnake_newHead s).newHeadX = s.foodX := congrArg Prod.fst hfood
  have hy : (moveSnake_newHead s).newHeadY = s.foodY := congrArg Prod.snd hfood
  have hate : ¬ ¬ ((moveSnake_newHead s).newHeadX = (moveSnake_newHead s).foodX ∧
      (moveSnake_newHead s).newHeadY = (moveSnake_newHead s).foodY) := by
    rw [f7, f8]
    exact not_not_intro ⟨hx, hy⟩
  unfold moveSnake
  simp only [hc, ne_eq, not_true_eq_false, if_false]
  unfold moveSnake_eat
  rw [if_neg hate, f5, f9]
  by_cases hlen : s.snakeLength < MAX_LENGTH - 1
  · simp only [if_pos hlen, f9]
  · simp only [if_neg hlen, f9]
    rw [← f5]

/-- The fields of the state an eating move returns. -/
theorem moveSnake_eat_fields (s : GameState) (rs : List Nat) (s' : GameState)
    (hc : checkCollision (moveSnake_newHead s) = 0)
    (hfood : ((moveSnake_newHead s).newHeadX, (moveSnake_newHead s).newHeadY) =
      (s.foodX, s.foodY))
    (h : moveSnake s rs = some s') :
    s'.snakeLength = (if s.snakeLength < MAX_LENGTH - 1 then (s.snakeLength + 1) % 256
                      else s.snakeLength) ∧
    s'.score = (s.score + 10) % 65536 ∧
    s'.tailPtr = s.tailPtr ∧
    s'.headPtr = (s.headPtr + 1) % MAX_LENGTH ∧
    s'.snakeX = store s.snakeX ((s.headPtr + 1) % MAX_LENGTH) (moveSnake_newHead s).newHeadX ∧
    s'.snakeY = store s.snakeY ((s.headPtr + 1) % MAX_LENGTH) (moveSnake_newHead s).newHeadY ∧
    s'.direction = s.direction ∧ s'.gameOver = s.gameOver := by
  obtain ⟨f1, f2, f3, f4, f5, f6, f7, f8, f9, f10, _⟩ := moveSnake_newHead_frame s
  rw [moveSnake_eat_spec s rs hc hfood] at h
  simp only [Option.map_eq_some'] at h
  obtain ⟨p, hp, rfl⟩ := h
  obtain ⟨p1, p2, p3, p4, p5, p6, p7, p8, p9, p10⟩ := placeFood_frame _ rs p hp
  simp only [] at p1 p2 p3 p4 p5 p6 p7 p8 p9 p10
  have hm : ∀ a : Nat, a &&& 127 = a % MAX_LENGTH := and_mask
  simp [moveSnake_addHead, setAttr, hm, p1, p2, p3, p4, p5, p6, p7, p8, p9, p10,
    f1, f2, f3, f4, f6, f10]

/-- Bytes 255 on the three ports: no direction key is down. -/
theorem keyDown_idle (e : Nat) : keyDown e 255 255 255 = false := by
  unfold keyDown
  split_ifs <;> decide

/-- A tick from a round `initGame` has just set up, with no key down and the
food not in front of the head: the snake moves one cell to the right. -/
theorem tick_from_initGame (s0 : GameState) (rs0 : List Nat) (s : GameState)
    (kQT kAG kYP : Nat) (rs : List Nat)
    (hinit : initGame s0 rs0 = some s)
    (hkeys : ∀ e, keyDown e kQT kAG kYP = false)
    (hfood : (s.foodX, s.foodY) ≠ (15, 11)) :
    (∀ k, k < 5 → segment s k = (10 + k, 11)) ∧ s.snakeLength = 5 ∧
    s.direction = DIR_RIGHT ∧ (s.snakeX s.headPtr, s.snakeY s.headPtr) = (14, 11) ∧
    ∃ s', tick s kQT kAG kYP rs = some s' ∧
      (s'.snakeX s'.headPtr, s'.snakeY s'.headPtr) = (15, 11) ∧
      segment s 0 = (10, 11) ∧ segment s' 0 = (11, 11) ∧ s'.snakeLength = 5 := by
  obtain ⟨i1, i2, i3, i4, _, _, i7, i8, _, _, _, _, _⟩ := initGame_spec s0 rs0 s hinit
  have hseg : ∀ k, k < 5 → segment s k = (10 + k, 11) := by
    intro k hk
    have hk' : (0 + k) % MAX_LENGTH = k := by simp only [MAX_LENGTH]; omega
    simp only [segment, i2, hk', i7, i8, if_pos hk]
  have hhx : s.snakeX 4 = 14 := by rw [i7]; rfl
  have hhy : s.snakeY 4 = 11 := by rw [i8]; rfl
  have hnx : (moveSnake_newHead s).newHeadX = 15 := by
    simp [moveSnake_newHead, i4, i1, hhx]
  have hny : (moveSnake_newHead s).newHeadY = 11 := by
    simp [moveSnake_newHead, i4, i1, hhy]
  obtain ⟨_, _, _, f4, f5, _⟩ := moveSnake_newHead_frame s
  have hc : checkCollision (moveSnake_newHead s) = 0 := by
    rw [checkCollision_eq_zero_iff, hnx, hny]
    refine ⟨by decide, ?_⟩
    intro k _ hk
    rw [f5, i3] at hk
    have hk' : (0 + k) % MAX_LENGTH = k := by simp only [MAX_LENGTH]; omega
    obtain ⟨f1, f2, _⟩ := moveSnake_newHead_frame s
    simp only [segment, f4, f1, f2, i2, hk', i7, i8, if_pos hk, ne_eq, Prod.mk.injEq]
    omega
  have hne : ((moveSnake_newHead s).newHeadX, (moveSnake_newHead s).newHeadY) ≠
      (s.foodX, s.foodY) := by
    rw [hnx, hny]; exact fun h => hfood h.symm
  obtain ⟨s', hm, m1, _, _, _, m5, m6, m7, m8, _, _⟩ := moveSnake_plain_spec s rs hc hne
  refine ⟨hseg, i3, i4, by rw [i1, hhx, hhy], s', ?_, ?_, hseg 0 (by decide), ?_, by rw [m1, i3]⟩
  · unfold tick
    rw [checkInput_idle s kQT kAG kYP hkeys]
    exact hm
  · rw [m6, m7, m8, hnx, hny]
    simp [store]
  · simp only [segment, m5, m7, m8, i1, i2, store, i7, i8, hnx, hny]
    rfl

/-! ## Claims about `moveSnake`: moving and eating -/

/-- C1: when `checkCollision` answers 0 for the candidate head and the
candidate differs from `(foodX, foodY)`, one call of `moveSnake` returns with
`snakeLength`, `score` and the food position as they were, `tailPtr` and
`headPtr` advanced by one modulo `MAX_LENGTH`, and the candidate stored in
the new `headPtr` slot.  From the state `initGame` sets up (segments
(10..14, 11), heading Right), with no key down and the food not at (15, 11),
one tick puts the head on (15, 11), moves the tail from (10, 11) to (11, 11)
and keeps the length 5. -/
theorem moveSnake_plain :
    (∀ (s : GameState) (rs : List Nat),
      checkCollision (moveSnake_newHead s) = 0 →
      ((moveSnake_newHead s).newHeadX, (moveSnake_newHead s).newHeadY) ≠ (s.foodX, s.foodY) →
      ∃ s', moveSnake s rs = some s' ∧
        s'.snakeLength = s.snakeLength ∧ s'.score = s.score ∧
        s'.foodX = s.foodX ∧ s'.foodY = s.foodY ∧
        s'.tailPtr = (s.tailPtr + 1) % MAX_LENGTH ∧
        s'.headPtr = (s.headPtr + 1) % MAX_LENGTH ∧
        (s'.snakeX s'.headPtr, s'.snakeY s'.headPtr) =
          ((moveSnake_newHead s).newHeadX, (moveSnake_newHead s).newHeadY)) ∧
    (∀ (s0 : GameState) (rs0 : List Nat) (s : GameState) (kQT kAG kYP : Nat) (rs : List Nat),
      initGame s0 rs0 = some s →
      (∀ e, keyDown e kQT kAG kYP = false) →
      (s.foodX, s.foodY) ≠ (15, 11) →
      (∀ k, k < 5 → segment s k = (10 + k, 11)) ∧ s.snakeLength = 5 ∧
      s.direction = DIR_RIGHT ∧ (s.snakeX s.headPtr, s.snakeY s.headPtr) = (14, 11) ∧
      ∃ s', tick s kQT kAG kYP rs = some s' ∧
        (s'.snakeX s'.headPtr, s'.snakeY s'.headPtr) = (15, 11) ∧
        segment s 0 = (10, 11) ∧ segment s' 0 = (11, 11) ∧ s'.snakeLength = 5) := by
  constructor
  · intro s rs hc hne
    obtain ⟨s', hm, m1, m2, m3, m4, m5, m6, m7, m8, _, _⟩ := moveSnake_plain_spec s rs hc hne
    refine ⟨s', hm, m1, m2, m3, m4, m5, m6, ?_⟩
    rw [m6, m7, m8]
    simp [store]
  · intro s0 rs0 s kQT kAG kYP rs hinit hkeys hfood
    exact tick_from_initGame s0 rs0 s kQT kAG kYP rs hinit hkeys hfood

/-- The first round after power-on with food at (1, 1) and ports reading 255:
one tick moves the head to (15, 11) and the tail to (11, 11), length 5. -/
theorem moveSnake_plain_witness :
    (∀ k, k < 5 → segment firstRound k = (10 + k, 11)) ∧ firstRound.snakeLength = 5 ∧
    firstRound.direction = DIR_RIGHT ∧
    (firstRound.snakeX firstRound.headPtr, firstRound.snakeY firstRound.headPtr) = (14, 11) ∧
    ∃ s', tick firstRound 255 255 255 [] = some s' ∧
      (s'.snakeX s'.headPtr, s'.snakeY s'.headPtr) = (15, 11) ∧
      segment firstRound 0 = (10, 11) ∧ segment s' 0 = (11, 11) ∧ s'.snakeLength = 5 :=
  moveSnake_plain.2 powerOn [0, 0] firstRound 255 255 255 [] rfl keyDown_idle (by decide)

set_option maxRecDepth 100000 in
/-- C9 as stated fails: the 127-cell snake of `longSnake` with the food in
front of the head and `score = 65530` eats without colliding, and the 16-bit
score comes out as 4, not 65540. -/
theorem moveSnake_eat_capped_score_wraps :
    (longSnake 8 5 65530).snakeLength = MAX_LENGTH - 1 ∧
    checkCollision (moveSnake_newHead (longSnake 8 5 65530)) = 0 ∧
    ((moveSnake_newHead (longSnake 8 5 65530)).newHeadX,
      (moveSnake_newHead (longSnake 8 5 65530)).newHeadY) =
      ((longSnake 8 5 65530).foodX, (longSnake 8 5 65530).foodY) ∧
    ∃ s', moveSnake (longSnake 8 5 65530) [0, 20] = some s' ∧ s'.snakeLength = 127 ∧
      s'.score = 4 ∧ s'.score ≠ (longSnake 8 5 65530).score + 10 := by
  refine ⟨by decide, by decide, by decide, ?_⟩
  have h : (moveSnake (longSnake 8 5 65530) [0, 20]).map
      (fun s' => (s'.snakeLength, s'.score)) = some (127, 4) := by
    decide
  simp only [Option.map_eq_some', Prod.mk.injEq] at h
  obtain ⟨s', hs', hlen, hscore⟩ := h
  exact ⟨s', hs', hlen, hscore, by rw [hscore]; decide⟩

/-- C9 (amended): for a state with `snakeLength = MAX_LENGTH - 1` in which
`checkCollision` answers 0 and the candidate head is the food position, a
call of `moveSnake` that returns has left `snakeLength` at 127 and set
`score` to `(score + 10) mod 65536`, which is exactly 10 more when
`score + 10 < 65536`. -/
theorem moveSnake_eat_capped (s : GameState) (rs : List Nat) (s' : GameState)
    (hlen : s.snakeLength = MAX_LENGTH - 1)
    (hc : checkCollision (moveSnake_newHead s) = 0)
    (hfood : ((moveSnake_newHead s).newHeadX, (moveSnake_newHead s).newHeadY) =
      (s.foodX, s.foodY))
    (h : moveSnake s rs = some s') :
    s'.snakeLength = 127 ∧
    s'.score = (s.score + 10) % 65536 ∧
    (s.score + 10 < 65536 → s'.score = s.score + 10) := by
  obtain ⟨e1, e2, _⟩ := moveSnake_eat_fields s rs s' hc hfood h
  rw [if_neg (by rw [hlen]; exact Nat.lt_irrefl _)] at e1
  refine ⟨by rw [e1, hlen]; rfl, e2, ?_⟩
  intro hsmall
  rw [e2]
  omega

set_option maxRecDepth 100000 in
/-- The 127-cell snake of `longSnake` with the food in front of the head and
score 120: after the call the length is still 127 and the score 130. -/
theorem moveSnake_eat_capped_witness :
    ∃ s', moveSnake (longSnake 8 5 120) [0, 20] = some s' ∧
      s'.snakeLength = 127 ∧
      s'.score = ((longSnake 8 5 120).score + 10) % 65536 ∧
      ((longSnake 8 5 120).score + 10 < 65536 → s'.score = (longSnake 8 5 120).score + 10) :=
  ⟨(moveSnake (longSnake 8 5 120) [0, 20]).getD powerOn, rfl,
    moveSnake_eat_capped (longSnake 8 5 120) [0, 20] _ (by decide) (by decide) (by decide) rfl⟩

/-! ## Food and snake over a run -/

/-- C3 (the code falls short): after power-on, `initGame` with `rand()`
returning 14, 10 puts the food at (15, 11); one tick with no key down eats
it, and `placeFood`, fed 14, 10 again, accepts (15, 11) once more, because it
runs before the new head is stored.  The reachable state has the food on the
live segment in slot `headPtr`. -/
theorem food_on_new_head :
    initGame powerOn [14, 10] = some firstRoundFoodAhead ∧
    (firstRoundFoodAhead.foodX, firstRoundFoodAhead.foodY) = (15, 11) ∧
    tick firstRoundFoodAhead 255 255 255 [14, 10] = some afterFirstBite ∧
    Reachable afterFirstBite ∧ afterFirstBite.gameOver = 0 ∧
    afterFirstBite.tailPtr = 0 ∧ afterFirstBite.headPtr = 5 ∧
    afterFirstBite.snakeLength = 6 ∧
    segment afterFirstBite 5 = (15, 11) ∧
    (afterFirstBite.foodX, afterFirstBite.foodY) = (15, 11) := by
  have h0 : initGame powerOn [14, 10] = some firstRoundFoodAhead := rfl
  have h1 : tick firstRoundFoodAhead 255 255 255 [14, 10] = some afterFirstBite := rfl
  refine ⟨h0, by decide, h1, ?_, by decide, by decide, by decide, by decide, by decide,
    by decide⟩
  exact Reachable.step _ 255 255 255 [14, 10] _ (Reachable.init _ _ _ h0) (by decide) h1

/-! ## Every way through `moveSnake` and `checkInput` -/

/-- `checkInput` writes `direction` only. -/
theorem checkInput_frame (s : GameState) (kQT kAG kYP : Nat) :
    checkInput s kQT kAG kYP = { s with direction := (checkInput s kQT kAG kYP).direction } := by
  unfold checkInput
  split_ifs <;> rfl

/-- After `checkInput` the direction is the old one or one of the four headings. -/
theorem checkInput_direction (s : GameState) (kQT kAG kYP : Nat) :
    (checkInput s kQT kAG kYP).direction = s.direction ∨
    (checkInput s kQT kAG kYP).direction ≤ 3 := by
  unfold checkInput
  split_ifs
  · right; exact (by decide : DIR_UP ≤ 3)
  · right; exact (by decide : DIR_DOWN ≤ 3)
  · right; exact (by decide : DIR_LEFT ≤ 3)
  · right; exact (by decide : DIR_RIGHT ≤ 3)
  · left; rfl

/-- The colliding move: the state `moveSnake` returns. -/
theorem moveSnake_collision_spec (s : GameState) (rs : List Nat) (s' : GameState)
    (hc : checkCollision (moveSnake_newHead s) = 1) (h : moveSnake s rs = some s') :
    s'.gameOver = 1 ∧ s'.snakeX = s.snakeX ∧ s'.snakeY = s.snakeY ∧
    s'.headPtr = s.headPtr ∧ s'.tailPtr = s.tailPtr ∧ s'.snakeLength = s.snakeLength ∧
    s'.direction = s.direction ∧ s'.score = s.score ∧
    s'.foodX = s.foodX ∧ s'.foodY = s.foodY ∧ s'.attr = s.attr := by
  obtain ⟨f1, f2, f3, f4, f5, f6, f7, f8, f9, _, f11⟩ := moveSnake_newHead_frame s
  unfold moveSnake at h
  simp only [hc] at h
  have h' : s' = { moveSnake_newHead s with gameOver := 1 } := (Option.some.inj h).symm
  rw [h']
  exact ⟨rfl, f1, f2, f3, f4, f5, f6, f9, f7, f8, f11⟩

/-- The food an eating move leaves: a cell of `1..29 x 1..21`. -/
theorem moveSnake_eat_food (s : GameState) (rs : List Nat) (s' : GameState)
    (hc : checkCollision (moveSnake_newHead s) = 0)
    (hfood : ((moveSnake_newHead s).newHeadX, (moveSnake_newHead s).newHeadY) =
      (s.foodX, s.foodY))
    (h : moveSnake s rs = some s') :
    1 ≤ s'.foodX ∧ s'.foodX ≤ 29 ∧ 1 ≤ s'.foodY ∧ s'.foodY ≤ 21 := by
  rw [moveSnake_eat_spec s rs hc hfood] at h
  simp only [Option.map_eq_some'] at h
  obtain ⟨p, hp, rfl⟩ := h
  obtain ⟨fx, fy, h1, h2, h3, h4, _, rfl⟩ := placeFood_spec _ rs p hp
  exact ⟨h1, h2, h3, h4⟩

/-- The score after one call of `moveSnake`. -/
theorem moveSnake_score (s : GameState) (rs : List Nat) (s' : GameState)
    (h : moveSnake s rs = some s') :
    s'.score = s.score ∨ s'.score = (s.score + 10) % 65536 := by
  rcases checkCollision_zero_or_one (moveSnake_newHead s) with hc | hc
  · by_cases hfood : ((moveSnake_newHead s).newHeadX, (moveSnake_newHead s).newHeadY) =
        (s.foodX, s.foodY)
    · right
      exact (moveSnake_eat_fields s rs s' hc hfood h).2.1
    · left
      obtain ⟨t, ht, _, m2, _⟩ := moveSnake_plain_spec s rs hc hfood
      rw [h] at ht
      rw [Option.some.inj ht]
      exact m2
  · left
    exact (moveSnake_collision_spec s rs s' hc h).2.2.2.2.2.2.2.1

/-- The length after one call of `moveSnake`. -/
theorem moveSnake_length (s : GameState) (rs : List Nat) (s' : GameState)
    (h : moveSnake s rs = some s') :
    s'.snakeLength = s.snakeLength ∨
    (s.snakeLength < 127 ∧ s'.snakeLength = s.snakeLength + 1) := by
  rcases checkCollision_zero_or_one (moveSnake_newHead s) with hc | hc
  · by_cases hfood : ((moveSnake_newHead s).newHeadX, (moveSnake_newHead s).newHeadY) =
        (s.foodX, s.foodY)
    · have e1 := (moveSnake_eat_fields s rs s' hc hfood h).1
      by_cases hlen : s.snakeLength < MAX_LENGTH - 1
      · right
        rw [if_pos hlen] at e1
        simp only [MAX_LENGTH] at hlen
        exact ⟨hlen, by rw [e1]; omega⟩
      · left
        rw [if_neg hlen] at e1
        exact e1
    · left
      obtain ⟨t, ht, m1, _⟩ := moveSnake_plain_spec s rs hc hfood
      rw [h] at ht
      rw [Option.some.inj ht]
      exact m1
  · left
    exact (moveSnake_collision_spec s rs s' hc h).2.2.2.2.2.1

/-! ## Claims about the ring buffer, the score and `checkCollision` -/

set_option maxRecDepth 100000 in
/-- C11 (the code falls short): the 127-cell snake of `longSnake` satisfies
`headPtr == (tailPtr + snakeLength - 1) mod MAX_LENGTH` (0, 126, 127); it
eats without colliding, and `moveSnake` advances `headPtr` to 127 while
`tailPtr` stays 0 and `snakeLength` stays 127: the invariant is lost. -/
theorem ringInvariant_lost_at_cap :
    ringInvariant (longSnake 8 5 0) ∧
    checkCollision (moveSnake_newHead (longSnake 8 5 0)) = 0 ∧
    ∃ s', moveSnake (longSnake 8 5 0) [0, 20] = some s' ∧
      s'.tailPtr = 0 ∧ s'.headPtr = 127 ∧ s'.snakeLength = 127 ∧ ¬ ringInvariant s' := by
  refine ⟨by decide, by decide, ?_⟩
  have h : (moveSnake (longSnake 8 5 0) [0, 20]).map
      (fun s' => (s'.tailPtr, s'.headPtr, s'.snakeLength)) = some (0, 127, 127) := by
    decide
  simp only [Option.map_eq_some', Prod.mk.injEq] at h
  obtain ⟨s', hs', h1, h2, h3⟩ := h
  refine ⟨s', hs', h1, h2, h3, ?_⟩
  unfold ringInvariant
  rw [h1, h2, h3]
  decide

set_option maxRecDepth 100000 in
/-- C12 as stated fails: one tick from the 127-cell snake of `longSnake` with
the food in front of the head and `score = 65530` leaves the 16-bit score
at 4, less than before. -/
theorem tick_score_decreases :
    ∃ s', tick (longSnake 8 5 65530) 255 255 255 [0, 20] = some s' ∧ s'.score = 4 ∧
      ¬ (longSnake 8 5 65530).score ≤ s'.score := by
  have h : (tick (longSnake 8 5 65530) 255 255 255 [0, 20]).map (fun s' => s'.score) =
      some 4 := by
    decide
  simp only [Option.map_eq_some'] at h
  obtain ⟨s', hs', hscore⟩ := h
  exact ⟨s', hs', hscore, by rw [hscore]; decide⟩

/-- C12 (amended): after a tick (`checkInput` then `moveSnake`) the 16-bit
score is the score before or `(score + 10) mod 65536`, so it is greater than
or equal to the score before whenever `score + 10 < 65536`; and it is 0
immediately after `initGame`. -/
theorem tick_score (s : GameState) (kQT kAG kYP : Nat) (rs : List Nat) (s' : GameState)
    (h : tick s kQT kAG kYP rs = some s') :
    (s'.score = s.score ∨ s'.score = (s.score + 10) % 65536) ∧
    (s.score + 10 < 65536 → s.score ≤ s'.score) ∧
    (∀ (s0 : GameState) (rs0 : List Nat) (t : GameState),
      initGame s0 rs0 = some t → t.score = 0) := by
  have hci : (checkInput s kQT kAG kYP).score = s.score := by
    rw [checkInput_frame]
  have hsc := moveSnake_score _ rs s' h
  rw [hci] at hsc
  refine ⟨hsc, ?_, ?_⟩
  · intro hsmall
    rcases hsc with e | e <;> omega
  · intro s0 rs0 t ht
    exact (initGame_spec s0 rs0 t ht).2.2.2.2.2.1

/-- The round-start snake with the food in front of the head and score 0:
the tick returns with score 10. -/
theorem tick_score_witness :
    ∃ s', tick (roundStart 15 11 0) 255 255 255 [0, 0] = some s' ∧
      (s'.score = (roundStart 15 11 0).score ∨
        s'.score = ((roundStart 15 11 0).score + 10) % 65536) ∧
      ((roundStart 15 11 0).score + 10 < 65536 → (roundStart 15 11 0).score ≤ s'.score) ∧
      (∀ (s0 : GameState) (rs0 : List Nat) (t : GameState),
        initGame s0 rs0 = some t → t.score = 0) :=
  ⟨(tick (roundStart 15 11 0) 255 255 255 [0, 0]).getD powerOn, rfl,
    tick_score (roundStart 15 11 0) 255 255 255 [0, 0] _ rfl⟩

/-- C13: for a candidate head inside the play rectangle that equals the
segment at `tailPtr` and none of the segments at ring positions
`tailPtr + 1 .. tailPtr + snakeLength - 1` (mod 128), `checkCollision`
answers 0; in general it answers 0 exactly when the candidate is inside the
rectangle and matches none of those segments, and the answer does not depend
on the food position. -/
theorem checkCollision_none_iff :
    (∀ s : GameState, inPlayArea s.newHeadX s.newHeadY →
      segment s 0 = (s.newHeadX, s.newHeadY) →
      (∀ k, 1 ≤ k → k < s.snakeLength → segment s k ≠ (s.newHeadX, s.newHeadY)) →
      checkCollision s = 0) ∧
    (∀ s : GameState, checkCollision s = 0 ↔
      inPlayArea s.newHeadX s.newHeadY ∧
      ∀ k, 1 ≤ k → k < s.snakeLength → segment s k ≠ (s.newHeadX, s.newHeadY)) ∧
    (∀ (s : GameState) (fx fy : Nat),
      checkCollision { s with foodX := fx, foodY := fy } = checkCollision s) := by
  refine ⟨?_, checkCollision_eq_zero_iff, ?_⟩
  · intro s hin _ hbody
    exact (checkCollision_eq_zero_iff s).2 ⟨hin, hbody⟩
  · intro s fx fy
    rcases checkCollision_zero_or_one s with h0 | h1
    · rw [h0]
      rw [checkCollision_eq_zero_iff] at h0 ⊢
      exact h0
    · rw [h1]
      rcases checkCollision_zero_or_one { s with foodX := fx, foodY := fy } with g0 | g1
      · rw [checkCollision_eq_zero_iff] at g0
        have : checkCollision s = 0 := (checkCollision_eq_zero_iff s).2 g0
        rw [this] at h1
        exact absurd h1 (by decide)
      · exact g1

/-- The round-start snake with candidate (10, 11), the cell of its tail:
no collision. -/
theorem checkCollision_none_iff_witness :
    checkCollision { roundStart 1 1 0 with newHeadX := 10, newHeadY := 11 } = 0 :=
  checkCollision_none_iff.1 { roundStart 1 1 0 with newHeadX := 10, newHeadY := 11 }
    (by decide) (by decide) (by
      intro k hk1 hk
      have hk5 : k < 5 := hk
      interval_cases k
      all_goals decide)

/-! ## The invariant of a run -/

/-- Under `InvCore` the head slot holds a cell of the play area. -/
theorem InvCore.head_in {s : GameState} (hs : InvCore s) :
    inPlayArea (s.snakeX s.headPtr) (s.snakeY s.headPtr) := by
  rcases hs.ring with ⟨hr, hw⟩ | ⟨_, hall⟩
  · have h := hw (s.snakeLength - 1) (by have := hs.len_lo; simp only [INITIAL_LENGTH] at this; omega)
    have hidx : (s.tailPtr + (s.snakeLength - 1)) % MAX_LENGTH = s.headPtr := by
      unfold ringInvariant at hr
      have := hs.len_lo
      simp only [INITIAL_LENGTH, MAX_LENGTH] at this hr ⊢
      omega
    simp only [segment, hidx] at h
    exact h
  · exact hall _ hs.head_lt

/-- Under `InvCore` the tail slot holds a cell of the play area. -/
theorem InvCore.tail_in {s : GameState} (hs : InvCore s) :
    inPlayArea (s.snakeX s.tailPtr) (s.snakeY s.tailPtr) := by
  rcases hs.ring with ⟨_, hw⟩ | ⟨_, hall⟩
  · have h := hw 0 (by have := hs.len_lo; simp only [INITIAL_LENGTH] at this; omega)
    have hidx : (s.tailPtr + 0) % MAX_LENGTH = s.tailPtr := by
      have := hs.tail_lt
      simp only [MAX_LENGTH] at this ⊢
      omega
    simp only [segment, hidx] at h
    exact h
  · exact hall _ hs.tail_lt

/-- The candidate is one step in `direction` from the head, when both lie in
the play area (so that no 8-bit wrap occurs). -/
theorem moveSnake_newHead_steps (s : GameState) (hd : s.direction ≤ 3)
    (hin : inPlayArea (s.snakeX s.headPtr) (s.snakeY s.headPtr))
    (hc : inPlayArea (moveSnake_newHead s).newHeadX (moveSnake_newHead s).newHeadY) :
    stepsTo s.direction (s.snakeX s.headPtr) (s.snakeY s.headPtr)
      (moveSnake_newHead s).newHeadX (moveSnake_newHead s).newHeadY := by
  have hcases : s.direction = 0 ∨ s.direction = 1 ∨ s.direction = 2 ∨ s.direction = 3 := by
    omega
  unfold inPlayArea at hin hc
  unfold stepsTo
  simp only [MIN_X, MAX_X, MIN_Y, MAX_Y, DIR_UP, DIR_DOWN, DIR_LEFT, DIR_RIGHT] at hin hc ⊢
  rcases hcases with h | h | h | h <;>
    simp [moveSnake_newHead, h] at hc ⊢ <;> omega

/-- `checkInput` keeps `InvCore`. -/
theorem InvCore_checkInput {s : GameState} (hs : InvCore s) (kQT kAG kYP : Nat) :
    InvCore (checkInput s kQT kAG kYP) := by
  have hd : (checkInput s kQT kAG kYP).direction ≤ 3 := by
    rcases checkInput_direction s kQT kAG kYP with h | h
    · rw [h]; exact hs.dir
    · exact h
  rw [checkInput_frame]
  exact ⟨hs.tail_lt, hs.head_lt, hs.len_lo, hs.len_hi, hd, hs.food, hs.ring⟩

/-- `InvCore` only reads the buffer, the pointers, the length, the direction
and the food. -/
theorem InvCore_congr {s s' : GameState} (hs : InvCore s)
    (hX : s'.snakeX = s.snakeX) (hY : s'.snakeY = s.snakeY)
    (hh : s'.headPtr = s.headPtr) (ht : s'.tailPtr = s.tailPtr)
    (hl : s'.snakeLength = s.snakeLength) (hd : s'.direction ≤ 3)
    (hf : 1 ≤ s'.foodX ∧ s'.foodX ≤ 29 ∧ 1 ≤ s'.foodY ∧ s'.foodY ≤ 21) :
    InvCore s' := by
  refine ⟨by rw [ht]; exact hs.tail_lt, by rw [hh]; exact hs.head_lt,
    by rw [hl]; exact hs.len_lo, by rw [hl]; exact hs.len_hi, hd, hf, ?_⟩
  have hr := hs.ring
  unfold ringInvariant segment at hr ⊢
  rw [hX, hY, hh, ht, hl]
  exact hr

/-- A move that does not collide keeps `InvCore`: the head advances onto a
cell of the play area, and either the tail advances or the length grows
below the cap. -/
theorem InvCore_advance {s s' : GameState} (hs : InvCore s) (cx cy : Nat)
    (hcin : inPlayArea cx cy)
    (hh : s'.headPtr = (s.headPtr + 1) % MAX_LENGTH)
    (hX : s'.snakeX = store s.snakeX ((s.headPtr + 1) % MAX_LENGTH) cx)
    (hY : s'.snakeY = store s.snakeY ((s.headPtr + 1) % MAX_LENGTH) cy)
    (hd : s'.direction = s.direction)
    (hf : 1 ≤ s'.foodX ∧ s'.foodX ≤ 29 ∧ 1 ≤ s'.foodY ∧ s'.foodY ≤ 21)
    (hmode : (s'.tailPtr = (s.tailPtr + 1) % MAX_LENGTH ∧ s'.snakeLength = s.snakeLength) ∨
      (s'.tailPtr = s.tailPtr ∧
        s'.snakeLength = if s.snakeLength < MAX_LENGTH - 1 then (s.snakeLength + 1) % 256
                         else s.snakeLength)) :
    InvCore s' := by
  have htl := hs.tail_lt
  have hhl := hs.head_lt
  have hlo := hs.len_lo
  have hhi := hs.len_hi
  simp only [MAX_LENGTH, INITIAL_LENGTH] at htl hhl hlo hhi
  have hcell : ∀ i, (i = (s.headPtr + 1) % MAX_LENGTH ∨ inPlayArea (s.snakeX i) (s.snakeY i)) →
      inPlayArea (s'.snakeX i) (s'.snakeY i) := by
    intro i hi
    rw [hX, hY]
    unfold store
    by_cases e : i = (s.headPtr + 1) % MAX_LENGTH
    · rw [if_pos e, if_pos e]; exact hcin
    · rw [if_neg e, if_neg e]
      rcases hi with hi | hi
      · exact absurd hi e
      · exact hi
  have hlen : s'.snakeLength = s.snakeLength ∨
      (s.snakeLength < 127 ∧ s'.snakeLength = s.snakeLength + 1) := by
    rcases hmode with ⟨_, hl⟩ | ⟨_, hl⟩
    · left; exact hl
    · by_cases hlt : s.snakeLength < MAX_LENGTH - 1
      · rw [if_pos hlt] at hl
        simp only [MAX_LENGTH] at hlt
        right; exact ⟨hlt, by rw [hl]; omega⟩
      · rw [if_neg hlt] at hl
        left; exact hl
  have htail : s'.tailPtr < MAX_LENGTH := by
    rcases hmode with ⟨ht, _⟩ | ⟨ht, _⟩
    · rw [ht]; exact Nat.mod_lt _ (by decide)
    · rw [ht]; exact hs.tail_lt
  refine ⟨htail, by rw [hh]; exact Nat.mod_lt _ (by decide),
    by simp only [INITIAL_LENGTH]; omega, by simp only [MAX_LENGTH]; omega,
    by rw [hd]; exact hs.dir, hf, ?_⟩
  rcases hs.ring with ⟨hr, hw⟩ | ⟨hcap, hall⟩
  · unfold ringInvariant at hr
    simp only [MAX_LENGTH] at hr
    rcases hmode with ⟨ht, hl⟩ | ⟨ht, hl⟩
    · -- the tail is dropped
      left
      constructor
      · unfold ringInvariant
        rw [hh, ht, hl]
        simp only [MAX_LENGTH]
        omega
      · intro k hk
        rw [hl] at hk
        simp only [segment, ht]
        apply hcell
        by_cases e : ((s.tailPtr + 1) % MAX_LENGTH + k) % MAX_LENGTH =
            (s.headPtr + 1) % MAX_LENGTH
        · left; exact e
        · right
          have hk1 : k + 1 < s.snakeLength := by
            simp only [MAX_LENGTH] at e
            omega
          have hseg := hw (k + 1) hk1
          have hidx : (s.tailPtr + (k + 1)) % MAX_LENGTH =
              ((s.tailPtr + 1) % MAX_LENGTH + k) % MAX_LENGTH := by
            simp only [MAX_LENGTH]; omega
          simp only [segment, hidx] at hseg
          exact hseg
    · by_cases hlt : s.snakeLength < MAX_LENGTH - 1
      · -- the snake grows
        rw [if_pos hlt] at hl
        simp only [MAX_LENGTH] at hlt
        have hl' : s'.snakeLength = s.snakeLength + 1 := by rw [hl]; omega
        left
        constructor
        · unfold ringInvariant
          rw [hh, ht, hl']
          simp only [MAX_LENGTH]
          omega
        · intro k hk
          rw [hl'] at hk
          simp only [segment, ht]
          apply hcell
          by_cases e : (s.tailPtr + k) % MAX_LENGTH = (s.headPtr + 1) % MAX_LENGTH
          · left; exact e
          · right
            have hk1 : k < s.snakeLength := by
              simp only [MAX_LENGTH] at e
              omega
            have hseg := hw k hk1
            simp only [segment] at hseg
            exact hseg
      · -- the length is at the cap: from now on the whole ring is in use
        rw [if_neg hlt] at hl
        simp only [MAX_LENGTH] at hlt
        right
        refine ⟨by rw [hl]; simp only [MAX_LENGTH]; omega, ?_⟩
        intro i hi
        simp only [MAX_LENGTH] at hi
        apply hcell
        by_cases e : i = (s.headPtr + 1) % MAX_LENGTH
        · left; exact e
        · right
          simp only [MAX_LENGTH] at e
          have hk1 : (i + 128 - s.tailPtr) % 128 < s.snakeLength := by omega
          have hseg := hw _ hk1
          have hidx : (s.tailPtr + (i + 128 - s.tailPtr) % 128) % MAX_LENGTH = i := by
            simp only [MAX_LENGTH]; omega
          simp only [segment, hidx] at hseg
          exact hseg
  · right
    refine ⟨?_, fun i hi => hcell i (Or.inr (hall i hi))⟩
    rcases hlen with e | ⟨hlt, _⟩
    · rw [e]; exact hcap
    · simp only [MAX_LENGTH] at hcap
      omega

/-- After the head has advanced, the old head is the neck. -/
theorem neckStep_advance {s s' : GameState} (hhl : s.headPtr < MAX_LENGTH) (cx cy : Nat)
    (hh : s'.headPtr = (s.headPtr + 1) % MAX_LENGTH)
    (hX : s'.snakeX = store s.snakeX ((s.headPtr + 1) % MAX_LENGTH) cx)
    (hY : s'.snakeY = store s.snakeY ((s.headPtr + 1) % MAX_LENGTH) cy)
    (hd : s'.direction = s.direction)
    (hstep : stepsTo s.direction (s.snakeX s.headPtr) (s.snakeY s.headPtr) cx cy) :
    neckStep s' := by
  have hn : ((s.headPtr + 1) % MAX_LENGTH + MAX_LENGTH - 1) % MAX_LENGTH = s.headPtr := by
    simp only [MAX_LENGTH] at hhl ⊢; omega
  have hne : s.headPtr ≠ (s.headPtr + 1) % MAX_LENGTH := by
    simp only [MAX_LENGTH] at hhl ⊢; omega
  unfold neckStep neckPtr
  rw [hh, hn, hX, hY, hd]
  simp only [store, if_neg hne, if_true]
  exact hstep

/-- One call of `moveSnake` from a state with `InvCore` ends in a state with
the whole invariant. -/
theorem Inv_moveSnake {s : GameState} (hs : InvCore s) (rs : List Nat) (s' : GameState)
    (h : moveSnake s rs = some s') : Inv s' := by
  obtain ⟨f1, f2, f3, f4, f5, f6, f7, f8, f9, f10, _⟩ := moveSnake_newHead_frame s
  rcases checkCollision_zero_or_one (moveSnake_newHead s) with hc | hc
  · have hcin := ((checkCollision_eq_zero_iff _).1 hc).1
    have hstep := moveSnake_newHead_steps s hs.dir hs.head_in hcin
    by_cases hfood : ((moveSnake_newHead s).newHeadX, (moveSnake_newHead s).newHeadY) =
        (s.foodX, s.foodY)
    · obtain ⟨e1, _, e3, e4, e5, e6, e7, _⟩ := moveSnake_eat_fields s rs s' hc hfood h
      have ef := moveSnake_eat_food s rs s' hc hfood h
      exact ⟨InvCore_advance hs _ _ hcin e4 e5 e6 e7 ef (Or.inr ⟨e3, e1⟩),
        fun _ => neckStep_advance hs.head_lt _ _ e4 e5 e6 e7 hstep⟩
    · obtain ⟨t, ht, m1, _, m3, m4, m5, m6, m7, m8, m9, _⟩ :=
        moveSnake_plain_spec s rs hc hfood
      rw [h] at ht
      have ht' : s' = t := Option.some.inj ht
      rw [ht']
      have ef : 1 ≤ t.foodX ∧ t.foodX ≤ 29 ∧ 1 ≤ t.foodY ∧ t.foodY ≤ 21 := by
        rw [m3, m4]; exact hs.food
      exact ⟨InvCore_advance hs _ _ hcin m6 m7 m8 m9 ef (Or.inl ⟨m5, m1⟩),
        fun _ => neckStep_advance hs.head_lt _ _ m6 m7 m8 m9 hstep⟩
  · obtain ⟨c1, c2, c3, c4, c5, c6, c7, _, c9, c10, _⟩ := moveSnake_collision_spec s rs s' hc h
    refine ⟨InvCore_congr hs c2 c3 c4 c5 c6 (by rw [c7]; exact hs.dir)
      (by rw [c9, c10]; exact hs.food), ?_⟩
    intro h0
    rw [c1] at h0
    exact absurd h0 (by decide)

/-- One tick keeps the invariant. -/
theorem Inv_tick {s : GameState} (hs : Inv s) (kQT kAG kYP : Nat) (rs : List Nat)
    (s' : GameState) (h : tick s kQT kAG kYP rs = some s') : Inv s' :=
  Inv_moveSnake (InvCore_checkInput hs.1 kQT kAG kYP) rs s' h

/-- `initGame` establishes the invariant. -/
theorem Inv_initGame (s0 : GameState) (rs : List Nat) (s : GameState)
    (h : initGame s0 rs = some s) : Inv s := by
  obtain ⟨i1, i2, i3, i4, _, _, i7, i8, hf1, hf2, hf3, hf4, _⟩ := initGame_spec s0 rs s h
  have hlt5 : ∀ k, k < 5 → (0 + k) % MAX_LENGTH = k := by
    intro k hk; simp only [MAX_LENGTH]; omega
  refine ⟨⟨?_, ?_, ?_, ?_, ?_, ⟨hf1, hf2, hf3, hf4⟩, Or.inl ⟨?_, ?_⟩⟩, ?_⟩
  · simp only [MAX_LENGTH]; omega
  · simp only [MAX_LENGTH]; omega
  · simp only [INITIAL_LENGTH]; omega
  · simp only [MAX_LENGTH]; omega
  · simp only [DIR_RIGHT] at i4; omega
  · unfold ringInvariant
    simp only [MAX_LENGTH]; omega
  · intro k hk
    rw [i3] at hk
    simp only [segment, i2, hlt5 k hk, i7, i8, if_pos hk]
    unfold inPlayArea
    simp only [MIN_X, MAX_X, MIN_Y, MAX_Y]
    omega
  · intro _
    have hneck : neckPtr s = 3 := by unfold neckPtr; simp only [MAX_LENGTH]; omega
    have e1 : s.snakeX 3 = 13 := by rw [i7]; rfl
    have e2 : s.snakeY 3 = 11 := by rw [i8]; rfl
    have e3 : s.snakeX 4 = 14 := by rw [i7]; rfl
    have e4 : s.snakeY 4 = 11 := by rw [i8]; rfl
    unfold neckStep
    rw [hneck, i1, i4, e1, e2, e3, e4]
    decide

/-- Every reachable state satisfies the invariant. -/
theorem Reachable.inv {s : GameState} (h : Reachable s) : Inv s := by
  induction h with
  | init s0 rs s hinit => exact Inv_initGame s0 rs s hinit
  | step s kQT kAG kYP rs s' _ _ ht ih => exact Inv_tick ih kQT kAG kYP rs s' ht

/-- A run from a reachable state ends in a reachable state. -/
theorem Reachable.run {s : GameState} (h : Reachable s)
    (inputs : List (Nat × Nat × Nat × List Nat)) (s' : GameState)
    (hrun : run s inputs = some s') : Reachable s' := by
  induction inputs generalizing s with
  | nil =>
    have : s = s' := Option.some.inj hrun
    rw [← this]; exact h
  | cons x rest ih =>
    obtain ⟨kQT, kAG, kYP, rs⟩ := x
    unfold Snake.run at hrun
    by_cases hg : s.gameOver = 0
    · rw [if_pos hg] at hrun
      simp only [Option.bind_eq_some] at hrun
      obtain ⟨t, ht, hrest⟩ := hrun
      exact ih (Reachable.step s kQT kAG kYP rs t h hg ht) hrest
    · rw [if_neg hg] at hrun
      have : s = s' := Option.some.inj hrun
      rw [← this]; exact h

/-- `checkInput` never sets the heading opposite to the current one. -/
theorem checkInput_not_opposite (s : GameState) (kQT kAG kYP : Nat) (hd : s.direction ≤ 3) :
    (checkInput s kQT kAG kYP).direction ≠ opposite s.direction := by
  have hcases : s.direction = DIR_UP ∨ s.direction = DIR_DOWN ∨
      s.direction = DIR_LEFT ∨ s.direction = DIR_RIGHT := by
    simp only [DIR_UP, DIR_DOWN, DIR_LEFT, DIR_RIGHT]; omega
  rcases hcases with h | h | h | h <;>
    simp only [checkInput, opposite, h] <;> split_ifs <;> simp_all

/-- While the direction is the step from the neck to the head, the candidate
computed for any heading but the opposite one is not the neck cell. -/
theorem newHead_ne_neck (s t : GameState) (hstep : neckStep s)
    (hX : t.snakeX = s.snakeX) (hY : t.snakeY = s.snakeY) (hh : t.headPtr = s.headPtr)
    (hd : t.direction ≤ 3) (hopp : t.direction ≠ opposite s.direction) :
    ((moveSnake_newHead t).newHeadX, (moveSnake_newHead t).newHeadY) ≠
      (s.snakeX (neckPtr s), s.snakeY (neckPtr s)) := by
  have hcases : t.direction = 0 ∨ t.direction = 1 ∨ t.direction = 2 ∨ t.direction = 3 := by
    omega
  unfold neckStep stepsTo at hstep
  simp only [DIR_UP, DIR_DOWN, DIR_LEFT, DIR_RIGHT] at hstep
  simp only [ne_eq, Prod.mk.injEq]
  rcases hstep with ⟨e, ex, ey⟩ | ⟨e, ex, ey⟩ | ⟨e, ex, ey⟩ | ⟨e, ex, ey⟩ <;>
    rcases hcases with h | h | h | h <;>
    simp [opposite, e, h] at hopp <;>
    simp [moveSnake_newHead, h, hX, hY, hh] <;>
    omega

/-! ## Claims about a run -/

/-- C14: in every state reachable from `initGame` by ticks,
`INITIAL_LENGTH <= snakeLength <= MAX_LENGTH - 1`, hence
`1 <= snakeLength <= MAX_LENGTH`, and a tick from it never lowers
`snakeLength`. -/
theorem snakeLength_bounds (s : GameState) (h : Reachable s) :
    INITIAL_LENGTH ≤ s.snakeLength ∧ s.snakeLength ≤ MAX_LENGTH - 1 ∧
    1 ≤ s.snakeLength ∧ s.snakeLength ≤ MAX_LENGTH ∧
    ∀ (kQT kAG kYP : Nat) (rs : List Nat) (s' : GameState),
      tick s kQT kAG kYP rs = some s' → s.snakeLength ≤ s'.snakeLength := by
  have hlo := h.inv.1.len_lo
  have hhi := h.inv.1.len_hi
  simp only [INITIAL_LENGTH, MAX_LENGTH] at hlo hhi ⊢
  refine ⟨hlo, hhi, by omega, by omega, ?_⟩
  intro kQT kAG kYP rs s' ht
  have hci : (checkInput s kQT kAG kYP).snakeLength = s.snakeLength := by
    rw [checkInput_frame]
  have hl := moveSnake_length _ rs s' ht
  rw [hci] at hl
  rcases hl with e | ⟨_, e⟩ <;> omega

/-- The first round after power-on: the length is 5, within the bounds. -/
theorem snakeLength_bounds_witness :
    INITIAL_LENGTH ≤ firstRound.snakeLength ∧ firstRound.snakeLength ≤ MAX_LENGTH - 1 ∧
    1 ≤ firstRound.snakeLength ∧ firstRound.snakeLength ≤ MAX_LENGTH ∧
    ∀ (kQT kAG kYP : Nat) (rs : List Nat) (s' : GameState),
      tick firstRound kQT kAG kYP rs = some s' →
      firstRound.snakeLength ≤ s'.snakeLength :=
  snakeLength_bounds firstRound (Reachable.init powerOn [0, 0] firstRound rfl)

/-- C18 as stated fails: after power-on, `initGame` and three ticks with Q,
then O, then A held, the third tick collides with the body; `checkInput` has
already set the direction to Down, while the head (13, 10) lies one step Left
of the neck (14, 10).  The state is reachable, with `gameOver = 1`. -/
theorem neckStep_lost_at_game_over :
    Reachable turnedIntoBody ∧ turnedIntoBody.gameOver = 1 ∧
    turnedIntoBody.direction = DIR_DOWN ∧
    (turnedIntoBody.snakeX (neckPtr turnedIntoBody),
      turnedIntoBody.snakeY (neckPtr turnedIntoBody)) = (14, 10) ∧
    (turnedIntoBody.snakeX turnedIntoBody.headPtr,
      turnedIntoBody.snakeY turnedIntoBody.headPtr) = (13, 10) ∧
    ¬ neckStep turnedIntoBody := by
  refine ⟨?_, by decide, by decide, by decide, by decide, by decide⟩
  exact (Reachable.init powerOn [0, 0] firstRound rfl).run
    [(254, 255, 255, []), (255, 255, 253, []), (255, 254, 255, [])] _ rfl

/-- C18 (amended): in every state reachable from `initGame` by ticks in which
the round is still on (`gameOver == 0`), the direction is the unit step from
the segment just behind the head (slot `headPtr - 1` mod 128) to the head,
and the candidate head that `moveSnake` computes after any `checkInput` is
never that neck segment. -/
theorem neck_never_hit (s : GameState) (h : Reachable s) (hg : s.gameOver = 0) :
    neckStep s ∧
    ∀ kQT kAG kYP : Nat,
      ((moveSnake_newHead (checkInput s kQT kAG kYP)).newHeadX,
        (moveSnake_newHead (checkInput s kQT kAG kYP)).newHeadY) ≠
      (s.snakeX (neckPtr s), s.snakeY (neckPtr s)) := by
  have hinv := h.inv
  refine ⟨hinv.2 hg, ?_⟩
  intro kQT kAG kYP
  have e := checkInput_frame s kQT kAG kYP
  exact newHead_ne_neck s _ (hinv.2 hg) (by rw [e]) (by rw [e]) (by rw [e])
    (InvCore_checkInput hinv.1 kQT kAG kYP).dir
    (checkInput_not_opposite s kQT kAG kYP hinv.1.dir)

/-- The first round after power-on: heading Right with neck (13, 11) and head
(14, 11), and no key combination sends the head onto the neck. -/
theorem neck_never_hit_witness :
    neckStep firstRound ∧
    ∀ kQT kAG kYP : Nat,
      ((moveSnake_newHead (checkInput firstRound kQT kAG kYP)).newHeadX,
        (moveSnake_newHead (checkInput firstRound kQT kAG kYP)).newHeadY) ≠
      (firstRound.snakeX (neckPtr firstRound), firstRound.snakeY (neckPtr firstRound)) :=
  neck_never_hit firstRound (Reachable.init powerOn [0, 0] firstRound rfl) (by decide)

/-- C15 (the code falls short): after power-on, `initGame` with the food in
front of the head and the seven ticks of `headOnTail`, the round is still on
and the live segments at both ends of the snake, slots `tailPtr = 5` and
`headPtr = 11`, hold the same cell (15, 11): the head moved onto the tail
while eating, so the tail stayed. -/
theorem snake_overlaps_itself :
    Reachable headOnTail ∧ headOnTail.gameOver = 0 ∧
    headOnTail.tailPtr = 5 ∧ headOnTail.headPtr = 11 ∧ headOnTail.snakeLength = 7 ∧
    ringInvariant headOnTail ∧
    segment headOnTail 0 = (15, 11) ∧ segment headOnTail 6 = (15, 11) := by
  refine ⟨?_, by decide, by decide, by decide, by decide, by decide, by decide, by decide⟩
  exact (Reachable.init powerOn [14, 10] firstRoundFoodAhead rfl).run
    [(255, 255, 255, [14, 10]), (255, 255, 255, []), (255, 255, 255, []),
     (255, 254, 255, []), (255, 255, 253, []), (255, 255, 255, []),
     (254, 255, 255, [0, 0])] _ rfl

/-! ## The rejection loop can exit -/

theorem ringSlots_length (n idx : Nat) : (ringSlots idx n).length = n := by
  induction n generalizing idx with
  | zero => rfl
  | succ n ih => simp only [ringSlots, List.length_cons, ih]

/-- A hit of the `for` loop of `placeFood` is a hit on one of the slots it reads. -/
theorem placeFood_onSnake_slot (s : GameState) (n idx : Nat)
    (h : placeFood_onSnake s idx n = true) :
    ∃ j, j ∈ ringSlots idx n ∧ (s.snakeX j, s.snakeY j) = (s.foodX, s.foodY) := by
  induction n generalizing idx with
  | zero => exact absurd h (by simp [placeFood_onSnake])
  | succ n ih =>
    unfold placeFood_onSnake at h
    split at h
    · rename_i hhit
      exact ⟨idx, by simp [ringSlots], by rw [hhit.1, hhit.2]⟩
    · obtain ⟨j, hj, hc⟩ := ih _ h
      exact ⟨j, by simp only [ringSlots, List.mem_cons]; right; exact hj, hc⟩

/-- Fewer than 609 slots cannot cover the 609 cells `placeFood` samples. -/
theorem exists_free_cell (s : GameState) (n idx : Nat) (hn : n < 609) :
    ∃ fx fy, 1 ≤ fx ∧ fx ≤ 29 ∧ 1 ≤ fy ∧ fy ≤ 21 ∧
      placeFood_onSnake { s with foodX := fx, foodY := fy } idx n = false := by
  by_contra hall
  have hcover : (Finset.Icc 1 29 ×ˢ Finset.Icc 1 21 : Finset (Nat × Nat)) ⊆
      ((ringSlots idx n).map (fun j => (s.snakeX j, s.snakeY j))).toFinset := by
    intro c hc
    simp only [Finset.mem_product, Finset.mem_Icc] at hc
    have hhit : placeFood_onSnake { s with foodX := c.1, foodY := c.2 } idx n = true := by
      by_contra hfree
      exact hall ⟨c.1, c.2, hc.1.1, hc.1.2, hc.2.1, hc.2.2, by simpa using hfree⟩
    obtain ⟨j, hj, hcell⟩ := placeFood_onSnake_slot _ n idx hhit
    simp only [List.mem_toFinset, List.mem_map]
    exact ⟨j, hj, hcell⟩
  have h1 := Finset.card_le_card hcover
  have h2 : ((ringSlots idx n).map (fun j => (s.snakeX j, s.snakeY j))).toFinset.card ≤ n := by
    calc _ ≤ ((ringSlots idx n).map (fun j => (s.snakeX j, s.snakeY j))).length :=
          List.toFinset_card_le _
      _ = n := by rw [List.length_map, ringSlots_length]
  have h3 : (Finset.Icc 1 29 ×ˢ Finset.Icc 1 21 : Finset (Nat × Nat)).card = 609 := by
    rw [Finset.card_product, Nat.card_Icc, Nat.card_Icc]
  omega

/-- With fewer than 609 segments some pair of `rand()` values is accepted
by the first pass of `placeFood`. -/
theorem placeFood_first_pass (s : GameState) (hlen : s.snakeLength < 609) :
    ∃ r1 r2 s', placeFood s [r1, r2] = some s' := by
  obtain ⟨fx, fy, h1, h2, h3, h4, hfree⟩ := exists_free_cell s s.snakeLength s.tailPtr hlen
  exact ⟨fx - 1, fy - 1, _, placeFood_accept s fx fy [] h1 h2 h3 h4 hfree⟩

/-- From a state with `InvCore`, `moveSnake` returns for suitable `rand()` values. -/
theorem moveSnake_can_return (s : GameState) (hs : InvCore s) :
    ∃ rs s', moveSnake s rs = some s' := by
  rcases checkCollision_zero_or_one (moveSnake_newHead s) with hc | hc
  · by_cases hfood : ((moveSnake_newHead s).newHeadX, (moveSnake_newHead s).newHeadY) =
        (s.foodX, s.foodY)
    · have hhi := hs.len_hi
      simp only [MAX_LENGTH] at hhi
      obtain ⟨r1, r2, p, hp⟩ := placeFood_first_pass
        { moveSnake_newHead s with
          snakeLength := if s.snakeLength < MAX_LENGTH - 1 then (s.snakeLength + 1) % 256
                         else s.snakeLength,
          score := (s.score + 10) % 65536 }
        (by
          show (if s.snakeLength < MAX_LENGTH - 1 then (s.snakeLength + 1) % 256
                else s.snakeLength) < 609
          split_ifs <;> omega)
      refine ⟨[r1, r2], moveSnake_addHead p (s.snakeX s.headPtr) (s.snakeY s.headPtr), ?_⟩
      rw [moveSnake_eat_spec s _ hc hfood, hp]
      rfl
    · obtain ⟨t, ht, _⟩ := moveSnake_plain_spec s [] hc hfood
      exact ⟨[], t, ht⟩
  · refine ⟨[], { moveSnake_newHead s with gameOver := 1 }, ?_⟩
    unfold moveSnake
    simp only [hc]
    rfl

/-- C17: for every snake state with `snakeLength <= MAX_LENGTH - 1` there are
two `rand()` values for which the first sampling pass of `placeFood` is
accepted (the 609 sampled cells of `1..29 x 1..21` cannot all be covered by
at most 127 slots); and from every state reachable from `initGame` a tick
returns for suitable `rand()` values, whatever the keys. -/
theorem placeFood_can_accept :
    (∀ s : GameState, s.snakeLength ≤ MAX_LENGTH - 1 →
      ∃ r1 r2 s', placeFood s [r1, r2] = some s') ∧
    (∀ s : GameState, Reachable s → ∀ kQT kAG kYP : Nat,
      ∃ rs s', tick s kQT kAG kYP rs = some s') := by
  constructor
  · intro s hlen
    simp only [MAX_LENGTH] at hlen
    exact placeFood_first_pass s (by omega)
  · intro s h kQT kAG kYP
    exact moveSnake_can_return _ (InvCore_checkInput h.inv.1 kQT kAG kYP)

/-- The round-start snake: some first pass of `placeFood` is accepted. -/
theorem placeFood_can_accept_witness :
    ∃ r1 r2 s', placeFood (roundStart 9 9 0) [r1, r2] = some s' :=
  placeFood_can_accept.1 (roundStart 9 9 0) (by decide)

/-! ## The `setAttr` calls -/

/-- The call list of `drawFood` is what `drawFood` writes. -/
theorem drawFood_attr (s : GameState) :
    (drawFood s).attr = applyCalls s.attr (drawFood_calls s) := rfl

/-- The call list of `drawSnake` reads the buffer and `headPtr` only. -/
theorem drawSnake_calls_congr (s t : GameState) (hX : t.snakeX = s.snakeX)
    (hY : t.snakeY = s.snakeY) (hh : t.headPtr = s.headPtr) (n idx : Nat) :
    drawSnake_calls t idx n = drawSnake_calls s idx n := by
  induction n generalizing idx with
  | zero => rfl
  | succ n ih => simp only [drawSnake_calls, hX, hY, hh, ih]

/-- The call list of `drawSnake` is what the loop of `drawSnake` writes. -/
theorem drawSnake_loop_attr (n : Nat) (s : GameState) (idx : Nat) :
    (drawSnake_loop s idx n).attr = applyCalls s.attr (drawSnake_calls s idx n) := by
  induction n generalizing s idx with
  | zero => rfl
  | succ n ih =>
    unfold drawSnake_loop
    simp only [drawSnake_calls, applyCalls, List.foldl_cons]
    split_ifs with hhead
    · rw [ih, drawSnake_calls_congr s (setAttr s _ _ _) rfl rfl rfl]
      rfl
    · rw [ih, drawSnake_calls_congr s (setAttr s _ _ _) rfl rfl rfl]
      rfl

/-- The call list of `moveSnake` is what a returning `moveSnake` writes. -/
theorem moveSnake_attr (s : GameState) (rs : List Nat) (s' : GameState)
    (h : moveSnake s rs = some s') :
    s'.attr = applyCalls s.attr (moveSnake_calls s rs) := by
  obtain ⟨f1, f2, f3, f4, f5, f6, f7, f8, f9, f10, f11⟩ := moveSnake_newHead_frame s
  unfold moveSnake at h
  unfold moveSnake_calls
  simp only [] at h ⊢
  by_cases hcol : checkCollision (moveSnake_newHead s) ≠ 0
  · rw [if_pos hcol] at h ⊢
    rw [← Option.some.inj h]
    exact f11
  · rw [if_neg hcol] at h ⊢
    simp only [Option.map_eq_some'] at h
    obtain ⟨p, hp, rfl⟩ := h
    rw [hp]
    simp only []
    unfold moveSnake_eat at hp
    by_cases hne : ¬ ((moveSnake_newHead s).newHeadX = (moveSnake_newHead s).foodX ∧
        (moveSnake_newHead s).newHeadY = (moveSnake_newHead s).foodY)
    · rw [if_pos hne] at hp ⊢
      rw [← Option.some.inj hp]
      simp only [moveSnake_addHead, setAttr, applyCalls, List.foldl, List.cons_append,
        List.nil_append, attrOffset, f11]
    · rw [if_neg hne] at hp ⊢
      obtain ⟨fx, fy, _, _, _, _, _, rfl⟩ := placeFood_spec _ rs p hp
      simp only [moveSnake_addHead, setAttr, applyCalls, List.foldl, List.cons_append,
        List.nil_append, attrOffset, drawFood_calls, drawFood, f11]
      split_ifs <;> simp only [f11]

/-- A cell of the play area has an interior attribute offset. -/
theorem interiorOffset_of_inPlayArea (x y : Nat) (h : inPlayArea x y) :
    interiorOffset (attrOffset x y) := by
  unfold inPlayArea at h
  unfold interiorOffset attrOffset
  simp only [MIN_X, MAX_X, MIN_Y, MAX_Y] at h
  omega

/-- The slots the loops read from a ring index are `(idx + k) mod 128`. -/
theorem ringSlots_mem (n idx j : Nat) (hidx : idx < 128) (hj : j ∈ ringSlots idx n) :
    ∃ k, k < n ∧ j = (idx + k) % 128 := by
  induction n generalizing idx with
  | zero => simp [ringSlots] at hj
  | succ n ih =>
    simp only [ringSlots, List.mem_cons] at hj
    rcases hj with rfl | hj
    · exact ⟨0, by omega, by omega⟩
    · rw [and_mask] at hj
      obtain ⟨k, hk, rfl⟩ := ih ((idx + 1) % 128) (Nat.mod_lt _ (by decide)) hj
      exact ⟨k + 1, by omega, by omega⟩

/-- The cells `drawSnake` passes to `setAttr` are cells of the slots it reads. -/
theorem drawSnake_calls_mem (s : GameState) (n idx : Nat) (c : Nat × Nat × Nat)
    (hc : c ∈ drawSnake_calls s idx n) :
    ∃ j, j ∈ ringSlots idx n ∧ c.1 = s.snakeX j ∧ c.2.1 = s.snakeY j := by
  induction n generalizing idx with
  | zero => simp [drawSnake_calls] at hc
  | succ n ih =>
    simp only [drawSnake_calls, List.mem_cons] at hc
    rcases hc with rfl | hc
    · exact ⟨idx, by simp [ringSlots], rfl, rfl⟩
    · obtain ⟨j, hj, h1, h2⟩ := ih _ hc
      exact ⟨j, by simp only [ringSlots, List.mem_cons]; right; exact hj, h1, h2⟩

/-- Under `InvCore` the `snakeLength` slots from `tailPtr`, and all slots from
`tailPtr` through `headPtr`, hold cells of the play area. -/
theorem InvCore.segments_in {s : GameState} (hs : InvCore s) :
    (∀ k, k < s.snakeLength → inPlayArea (segment s k).1 (segment s k).2) ∧
    (∀ k, k ≤ (s.headPtr + MAX_LENGTH - s.tailPtr) % MAX_LENGTH →
      inPlayArea (segment s k).1 (segment s k).2) := by
  have htl := hs.tail_lt
  have hhl := hs.head_lt
  have hlo := hs.len_lo
  have hhi := hs.len_hi
  simp only [MAX_LENGTH, INITIAL_LENGTH] at htl hhl hlo hhi
  rcases hs.ring with ⟨hr, hw⟩ | ⟨_, hall⟩
  · refine ⟨hw, ?_⟩
    intro k hk
    apply hw
    unfold ringInvariant at hr
    simp only [MAX_LENGTH] at hr hk
    omega
  · have hseg : ∀ k, inPlayArea (segment s k).1 (segment s k).2 := by
      intro k
      simp only [segment]
      exact hall _ (Nat.mod_lt _ (by decide))
    exact ⟨fun k _ => hseg k, fun k _ => hseg k⟩

/-- Under `InvCore` every `setAttr` call of `moveSnake` is on an interior offset. -/
theorem moveSnake_calls_interior (s : GameState) (hs : InvCore s) (rs : List Nat)
    (c : Nat × Nat × Nat) (hc : c ∈ moveSnake_calls s rs) :
    interiorOffset (attrOffset c.1 c.2.1) := by
  obtain ⟨f1, f2, _, f4, _⟩ := moveSnake_newHead_frame s
  unfold moveSnake_calls at hc
  simp only [] at hc
  by_cases hcol : checkCollision (moveSnake_newHead s) ≠ 0
  · rw [if_pos hcol] at hc
    exact absurd hc (List.not_mem_nil _)
  · rw [if_neg hcol] at hc
    have hc0 : checkCollision (moveSnake_newHead s) = 0 := by
      rcases checkCollision_zero_or_one (moveSnake_newHead s) with h0 | h1
      · exact h0
      · exact absurd h1 (fun e => hcol (by rw [e]; decide))
    have hcin := ((checkCollision_eq_zero_iff _).1 hc0).1
    cases hp : moveSnake_eat (moveSnake_newHead s) rs with
    | none =>
      rw [hp] at hc
      exact absurd hc (List.not_mem_nil _)
    | some p =>
      rw [hp] at hc
      simp only [List.mem_append, List.mem_cons, List.mem_singleton, List.not_mem_nil,
        or_false] at hc
      rcases hc with hfirst | rfl | rfl
      · unfold moveSnake_eat at hp
        by_cases hne : ¬ ((moveSnake_newHead s).newHeadX = (moveSnake_newHead s).foodX ∧
            (moveSnake_newHead s).newHeadY = (moveSnake_newHead s).foodY)
        · rw [if_pos hne] at hfirst
          simp only [List.mem_singleton] at hfirst
          rw [hfirst, f1, f2, f4]
          exact interiorOffset_of_inPlayArea _ _ hs.tail_in
        · rw [if_neg hne] at hfirst hp
          obtain ⟨fx, fy, h1, h2, h3, h4, _, rfl⟩ := placeFood_spec _ rs p hp
          simp only [drawFood_calls, List.mem_singleton] at hfirst
          rw [hfirst]
          apply interiorOffset_of_inPlayArea
          unfold inPlayArea
          simp only [drawFood, setAttr, MIN_X, MAX_X, MIN_Y, MAX_Y]
          omega
      · exact interiorOffset_of_inPlayArea _ _ hs.head_in
      · exact interiorOffset_of_inPlayArea _ _ hcin

/-- C16: in every state reachable from `initGame` by ticks, every live snake
segment (the `snakeLength` slots from `tailPtr`, and every slot from
`tailPtr` through `headPtr`) and the food lie in
`MIN_X..MAX_X x MIN_Y..MAX_Y`, so every offset `y * 32 + x` that `drawSnake`,
`drawFood` and a following `moveSnake` pass to `setAttr` is below 768 and is
no border cell. -/
theorem cells_in_play_area (s : GameState) (h : Reachable s) :
    (∀ k, k < s.snakeLength → inPlayArea (segment s k).1 (segment s k).2) ∧
    (∀ k, k ≤ (s.headPtr + MAX_LENGTH - s.tailPtr) % MAX_LENGTH →
      inPlayArea (segment s k).1 (segment s k).2) ∧
    inPlayArea s.foodX s.foodY ∧
    (∀ c, c ∈ drawSnake_calls s s.tailPtr s.snakeLength →
      interiorOffset (attrOffset c.1 c.2.1)) ∧
    (∀ c, c ∈ drawFood_calls s → interiorOffset (attrOffset c.1 c.2.1)) ∧
    (∀ (kQT kAG kYP : Nat) (rs : List Nat) (c : Nat × Nat × Nat),
      c ∈ moveSnake_calls (checkInput s kQT kAG kYP) rs →
      interiorOffset (attrOffset c.1 c.2.1)) := by
  have hs := h.inv.1
  have hfood : inPlayArea s.foodX s.foodY := by
    have := hs.food
    unfold inPlayArea
    simp only [MIN_X, MAX_X, MIN_Y, MAX_Y]
    omega
  refine ⟨hs.segments_in.1, hs.segments_in.2, hfood, ?_, ?_, ?_⟩
  · intro c hc
    obtain ⟨j, hj, h1, h2⟩ := drawSnake_calls_mem s _ _ c hc
    obtain ⟨k, hk, rfl⟩ := ringSlots_mem _ _ j hs.tail_lt hj
    rw [h1, h2]
    exact interiorOffset_of_inPlayArea _ _ (hs.segments_in.1 k hk)
  · intro c hc
    simp only [drawFood_calls, List.mem_singleton] at hc
    rw [hc]
    exact interiorOffset_of_inPlayArea _ _ hfood
  · intro kQT kAG kYP rs c hc
    exact moveSnake_calls_interior _ (InvCore_checkInput hs kQT kAG kYP) rs c hc

/-- The first round after power-on: its five segments, its food and every
`setAttr` offset of `drawSnake`, `drawFood` and the next `moveSnake` are
inside the play area. -/
theorem cells_in_play_area_witness :
    (∀ k, k < firstRound.snakeLength →
      inPlayArea (segment firstRound k).1 (segment firstRound k).2) ∧
    (∀ k, k ≤ (firstRound.headPtr + MAX_LENGTH - firstRound.tailPtr) % MAX_LENGTH →
      inPlayArea (segment firstRound k).1 (segment firstRound k).2) ∧
    inPlayArea firstRound.foodX firstRound.foodY ∧
    (∀ c, c ∈ drawSnake_calls firstRound firstRound.tailPtr firstRound.snakeLength →
      interiorOffset (attrOffset c.1 c.2.1)) ∧
    (∀ c, c ∈ drawFood_calls firstRound → interiorOffset (attrOffset c.1 c.2.1)) ∧
    (∀ (kQT kAG kYP : Nat) (rs : List Nat) (c : Nat × Nat × Nat),
      c ∈ moveSnake_calls (checkInput firstRound kQT kAG kYP) rs →
      interiorOffset (attrOffset c.1 c.2.1)) :=
  cells_in_play_area firstRound (Reachable.init powerOn [0, 0] firstRound rfl)

/-! ## The score below the growth cap -/

/-- Length and score after one call of `moveSnake`: both as they were, or the
length grown below the cap and the 16-bit score raised by 10. -/
theorem moveSnake_length_score (s : GameState) (rs : List Nat) (s' : GameState)
    (h : moveSnake s rs = some s') :
    (s'.snakeLength = s.snakeLength ∧ s'.score = s.score) ∨
    (s'.snakeLength = (if s.snakeLength < MAX_LENGTH - 1 then (s.snakeLength + 1) % 256
                       else s.snakeLength) ∧
      s'.score = (s.score + 10) % 65536) := by
  rcases checkCollision_zero_or_one (moveSnake_newHead s) with hc | hc
  · by_cases hfood : ((moveSnake_newHead s).newHeadX, (moveSnake_newHead s).newHeadY) =
        (s.foodX, s.foodY)
    · right
      obtain ⟨e1, e2, _⟩ := moveSnake_eat_fields s rs s' hc hfood h
      exact ⟨e1, e2⟩
    · left
      obtain ⟨t, ht, m1, m2, _⟩ := moveSnake_plain_spec s rs hc hfood
      rw [h] at ht
      rw [Option.some.inj ht]
      exact ⟨m1, m2⟩
  · left
    obtain ⟨_, _, _, _, _, c6, _, c8, _⟩ := moveSnake_collision_spec s rs s' hc h
    exact ⟨c6, c8⟩

/-- In a reachable state below the growth cap the score is ten times the
number of cells grown, so at most 1210: no 16-bit wrap has occurred. -/
theorem Reachable.score_below_cap {s : GameState} (h : Reachable s)
    (hlen : s.snakeLength < MAX_LENGTH - 1) :
    s.score = 10 * (s.snakeLength - INITIAL_LENGTH) := by
  induction h with
  | init s0 rs s hinit =>
    obtain ⟨_, _, i3, _, _, i6, _⟩ := initGame_spec s0 rs s hinit
    rw [i3, i6]
    rfl
  | step s kQT kAG kYP rs s' hs _ ht ih =>
    have hlo := hs.inv.1.len_lo
    have hci1 : (checkInput s kQT kAG kYP).snakeLength = s.snakeLength := by
      rw [checkInput_frame]
    have hci2 : (checkInput s kQT kAG kYP).score = s.score := by
      rw [checkInput_frame]
    have hls := moveSnake_length_score _ rs s' ht
    rw [hci1, hci2] at hls
    simp only [MAX_LENGTH, INITIAL_LENGTH] at hlen hlo ih hls ⊢
    rcases hls with ⟨e1, e2⟩ | ⟨e1, e2⟩
    · rw [e1] at hlen ⊢
      rw [e2]
      exact ih hlen
    · by_cases hlt : s.snakeLength < 127
      · rw [if_pos hlt] at e1
        have ih' := ih (by omega)
        have h1 : s'.snakeLength = s.snakeLength + 1 := by omega
        have h2 : s.score = 10 * s.snakeLength - 50 := by omega
        have h3 : s'.score = s.score + 10 := by omega
        rw [h1, h3, h2]
        omega
      · rw [if_neg hlt] at e1
        omega

/-! ## Claims about `moveSnake`: eating below the cap -/

/-- C2: in every state in which `main` calls `moveSnake` with
`snakeLength < MAX_LENGTH - 1`, `checkCollision` answering 0 and the
candidate head equal to `(foodX, foodY)`, a call of `moveSnake` that returns
(the random values let `placeFood` terminate) has raised `snakeLength` by
exactly 1 and the 16-bit `score` by exactly 10 (the score before is
`10 * (snakeLength - 5)`, far from the wrap), left `tailPtr` alone, advanced
`headPtr` by one modulo 128 and stored the candidate head there. -/
theorem moveSnake_eat_grows (t : GameState) (rs : List Nat) (t' : GameState)
    (hplay : InGame t)
    (hlen : t.snakeLength < MAX_LENGTH - 1)
    (hc : checkCollision (moveSnake_newHead t) = 0)
    (hfood : ((moveSnake_newHead t).newHeadX, (moveSnake_newHead t).newHeadY) =
      (t.foodX, t.foodY))
    (h : moveSnake t rs = some t') :
    t'.snakeLength = t.snakeLength + 1 ∧
    t'.score = t.score + 10 ∧
    t'.tailPtr = t.tailPtr ∧
    t'.headPtr = (t.headPtr + 1) % MAX_LENGTH ∧
    (t'.snakeX t'.headPtr, t'.snakeY t'.headPtr) =
      ((moveSnake_newHead t).newHeadX, (moveSnake_newHead t).newHeadY) := by
  obtain ⟨s, kQT, kAG, kYP, hs, _, rfl⟩ := hplay
  have hci1 : (checkInput s kQT kAG kYP).snakeLength = s.snakeLength := by
    rw [checkInput_frame]
  have hci2 : (checkInput s kQT kAG kYP).score = s.score := by
    rw [checkInput_frame]
  have hscore := hs.score_below_cap (by rw [← hci1]; exact hlen)
  obtain ⟨e1, e2, e3, e4, e5, e6, _, _⟩ := moveSnake_eat_fields _ rs t' hc hfood h
  rw [if_pos hlen] at e1
  rw [hci1] at hlen
  simp only [MAX_LENGTH, INITIAL_LENGTH] at hlen hscore
  refine ⟨?_, ?_, e3, e4, ?_⟩
  · rw [e1, hci1]
    omega
  · rw [e2, hci2]
    omega
  · rw [e4, e5, e6]
    simp [store]

/-- The first round after power-on with the food in front of the head, no key
down: `moveSnake` is called in a state of the run, eats, and returns with
length 6, score 10 and the head (15, 11) in slot 5. -/
theorem moveSnake_eat_grows_witness :
    afterFirstBite.snakeLength = (checkInput firstRoundFoodAhead 255 255 255).snakeLength + 1 ∧
    afterFirstBite.score = (checkInput firstRoundFoodAhead 255 255 255).score + 10 ∧
    afterFirstBite.tailPtr = (checkInput firstRoundFoodAhead 255 255 255).tailPtr ∧
    afterFirstBite.headPtr =
      ((checkInput firstRoundFoodAhead 255 255 255).headPtr + 1) % MAX_LENGTH ∧
    (afterFirstBite.snakeX afterFirstBite.headPtr,
      afterFirstBite.snakeY afterFirstBite.headPtr) =
      ((moveSnake_newHead (checkInput firstRoundFoodAhead 255 255 255)).newHeadX,
        (moveSnake_newHead (checkInput firstRoundFoodAhead 255 255 255)).newHeadY) :=
  moveSnake_eat_grows (checkInput firstRoundFoodAhead 255 255 255) [14, 10] afterFirstBite
    ⟨firstRoundFoodAhead, 255, 255, 255,
      Reachable.init powerOn [14, 10] firstRoundFoodAhead rfl, by decide, rfl⟩
    (by decide) (by decide) (by decide) rfl

end Snake
